import Mathlib

/-!
Shallow embedding of the wa-ia message router (src/server.js, src/memory.js,
src/handover.js, src/polish.js, src/ai.js, src/whatsapp.js).

Modelling conventions:
- JavaScript string primitives (trim, startsWith, includes, toLowerCase,
  split(" "), join, slice, replace-first-occurrence) are embedded as
  executable functions over the character list of a Lean String; they are
  the js-prefixed functions below.
- JSON.stringify/JSON.parse of a context turn list are mutually inverse on
  the values this program stores, so the store value type is a sum carrying
  either a raw string or a decoded turn list (Value), and the JSON round
  trip is the identity on the ctx payloads.
- The durable backend (ioredis) is modelled as a key/value map with lazy
  expiry plus a RedisEnv regime: conf is whether REDIS_URL is configured
  (the redis object is non-null), up is whether calls to the backend
  succeed during this run; a failing call leaves the backend state
  unchanged and the safe wrappers translate the failure exactly as the
  source does (null / false / empty list).
- External calls that can reject (axios post in sendTextMessage, the
  OpenAI completion in gerarResposta) are driven by per-run oracles in Ctx;
  a rejection is an Except.error escaping the handler, matching an
  unhandled rejection of the async webhook handler.
- Each run of the handler uses one wall-clock second (Ctx.now), matching
  nowSec() for all store operations of that webhook invocation.
-/

/-- Whitespace test for the JS trim semantics (space, tab, LF, CR, VT, FF). -/
def isJsSpace (c : Char) : Bool :=
  c = ' ' || c = '\t' || c = '\n' || c = '\r' || c = Char.ofNat 11 || c = Char.ofNat 12

/-- Embedding of JavaScript String.prototype.trim. -/
def jsTrim (s : String) : String :=
  ⟨((s.data.dropWhile isJsSpace).reverse.dropWhile isJsSpace).reverse⟩

/-- Embedding of JavaScript String.prototype.startsWith. -/
def jsStartsWith (s pat : String) : Bool :=
  pat.data.isPrefixOf s.data

/-- Infix test on character lists (auxiliary for includes). -/
def infixOfAux (p : List Char) : List Char → Bool
  | [] => p.isPrefixOf []
  | c :: cs => p.isPrefixOf (c :: cs) || infixOfAux p cs

/-- Embedding of JavaScript String.prototype.includes. -/
def jsIncludes (s pat : String) : Bool :=
  infixOfAux pat.data s.data

/-- Lower-casing of one character covering ASCII and the Latin-1 letters
(JS toLowerCase restricted to the alphabet this program compares). -/
def jsLowerChar (c : Char) : Char :=
  if 'A' ≤ c && c ≤ 'Z' then Char.ofNat (c.toNat + 32)
  else if 0xC0 ≤ c.toNat && c.toNat ≤ 0xDE && c.toNat ≠ 0xD7 then Char.ofNat (c.toNat + 32)
  else c

/-- Embedding of JavaScript String.prototype.toLowerCase. -/
def jsToLower (s : String) : String :=
  ⟨s.data.map jsLowerChar⟩

/-- Split a character list at each space character (JS split(" ") keeps
empty fields). -/
def splitSpaceAux : List Char → List Char → List (List Char)
  | [], acc => [acc.reverse]
  | c :: cs, acc =>
    if c = ' ' then acc.reverse :: splitSpaceAux cs []
    else splitSpaceAux cs (c :: acc)

/-- Embedding of JavaScript String.prototype.split(" "). -/
def jsSplitOnSpace (s : String) : List String :=
  (splitSpaceAux s.data []).map (fun l => ⟨l⟩)

/-- Embedding of JavaScript Array.prototype.join(sep). -/
def jsJoin (sep : String) : List String → String
  | [] => ""
  | [x] => x
  | x :: y :: rest => x ++ sep ++ jsJoin sep (y :: rest)

/-- Embedding of JavaScript String.prototype.slice(0, n). -/
def jsSliceTo (n : Nat) (s : String) : String :=
  ⟨s.data.take n⟩

/-- Remove the first occurrence of pat (replace(pat, "") in JS, auxiliary). -/
def stripFirstAux (p : List Char) : List Char → List Char
  | [] => []
  | c :: cs =>
    if p.isPrefixOf (c :: cs) then (c :: cs).drop p.length
    else c :: stripFirstAux p cs

/-- Embedding of JavaScript String.prototype.replace(pat, "") for a plain
nonempty pattern: remove the first occurrence of pat. -/
def stripFirst (pat s : String) : String :=
  ⟨stripFirstAux pat.data s.data⟩

/-! ## handover.js -/

/-- Keyword list of wantsTechnician in src/handover.js. -/
def technicianKeywords : List String :=
  ["técnico", "tecnico", "assistência", "atendente", "humano"]

/-- Embedding of wantsTechnician (src/handover.js): case-insensitive
substring match against the fixed keyword set. -/
def wantsTechnician (text : String) : Bool :=
  let t := jsToLower text
  technicianKeywords.any (fun k => jsIncludes t k)

/-- Typed operator command, the result shape of parseCommand. -/
inductive Command where
  | reply (toId msg : String)
  | reply_raw (toId msg : String)
  | send (toId : String)
  | close (toId : String)
  | list
  | none
deriving DecidableEq, Repr

/-- Embedding of parseCommand (src/handover.js): trim, then test the five
directives in source order, tokenizing on single spaces; token 1 is the
recipient, the remaining tokens joined by single spaces are the body. -/
def parseCommand (text : String) : Command :=
  let t := jsTrim text
  if jsStartsWith t "/respraw " then
    let parts := jsSplitOnSpace t
    Command.reply_raw (parts.getD 1 "") (jsJoin " " (parts.drop 2))
  else if jsStartsWith t "/resp " then
    let parts := jsSplitOnSpace t
    Command.reply (parts.getD 1 "") (jsJoin " " (parts.drop 2))
  else if jsStartsWith t "/enviar " then
    Command.send ((jsSplitOnSpace t).getD 1 "")
  else if jsStartsWith t "/fechar " then
    Command.close ((jsSplitOnSpace t).getD 1 "")
  else if t = "/abertos" then
    Command.list
  else
    Command.none

/-! ## memory.js data model -/

/-- One conversation turn, a role/content record. -/
structure Turn where
  role : String
  content : String
deriving DecidableEq, Repr

/-- Value stored under a key: either a raw string (mode, ticket sentinel,
preview text) or a decoded context turn list (the JSON payload written by
saveContext). -/
inductive Value where
  | str (s : String)
  | ctx (l : List Turn)
deriving DecidableEq, Repr

/-- One entry of a key/value tier: key, value, absolute expiry second. -/
structure Entry where
  key : String
  val : Value
  exp : Nat
deriving DecidableEq, Repr

/-- A storage tier (the in-process Map, or the redis keyspace). -/
abbrev Mem : Type := List Entry

/-- Retention window of mode/context/ticket keys (24 h in seconds). -/
def TTL : Nat := 60 * 60 * 24

/-- Lookup of the entry stored under a key. -/
def findEntry (k : String) (m : Mem) : Option Entry :=
  List.find? (fun e => e.key = k) m

/-- Embedding of memGet (src/memory.js): absent or expired keys read as
null, an expired entry is deleted on read. -/
def memGet (now : Nat) (k : String) (m : Mem) : Option Value × Mem :=
  match findEntry k m with
  | Option.none => (Option.none, m)
  | Option.some e =>
    if e.exp ≤ now then (Option.none, List.filter (fun e' => ¬ e'.key = k) m)
    else (Option.some e.val, m)

/-- Embedding of memSet (src/memory.js): store value with expiry
now + ttl; an existing key is updated in place (JS Map.set), a new key is
appended. -/
def memSet (now ttl : Nat) (k : String) (v : Value) (m : Mem) : Mem :=
  if (findEntry k m).isSome then
    List.map (fun e => if e.key = k then Entry.mk k v (now + ttl) else e) m
  else
    m ++ [Entry.mk k v (now + ttl)]

/-- Embedding of memDel (src/memory.js). -/
def memDel (k : String) (m : Mem) : Mem :=
  List.filter (fun e' => ¬ e'.key = k) m

/-- Embedding of memKeys (src/memory.js): the keys with the given prefix,
in map order; note the source performs no expiry check here. -/
def memKeys (pre : String) (m : Mem) : List String :=
  (List.filter (fun e => jsStartsWith e.key pre) m).map Entry.key

/-- Redis GET with lazy expiry: the backend keyspace behaves like the
in-process map (absent/expired reads as null, expired dropped on access). -/
def redisGet (now : Nat) (k : String) (m : Mem) : Option Value × Mem :=
  memGet now k m

/-- Redis SET key value EX ttl (same key/value/expiry semantics as the
in-process map). -/
def redisSet (now ttl : Nat) (k : String) (v : Value) (m : Mem) : Mem :=
  memSet now ttl k v m

/-- Redis DEL key. -/
def redisDel (k : String) (m : Mem) : Mem :=
  memDel k m

/-- Redis KEYS pre* — the live keys carrying the given prefix. -/
def redisKeysPref (now : Nat) (pre : String) (m : Mem) : List String :=
  (List.filter (fun e => jsStartsWith e.key pre && decide (now < e.exp)) m).map Entry.key

/-- Availability regime of the durable backend for one run: conf is
whether REDIS_URL was configured at startup (the redis handle is
non-null), up is whether backend calls succeed. -/
structure RedisEnv where
  conf : Bool
  up : Bool
deriving DecidableEq, Repr

/-- Embedding of safeRedisGet: null when unconfigured, null (caught error)
when the backend is down, otherwise the backend read. -/
def safeRedisGet (env : RedisEnv) (now : Nat) (k : String) (m : Mem) : Option Value × Mem :=
  if !env.conf then (Option.none, m)
  else if !env.up then (Option.none, m)
  else redisGet now k m

/-- Embedding of safeRedisSet: false when unconfigured or failing,
true after a successful backend write. -/
def safeRedisSet (env : RedisEnv) (now ttl : Nat) (k : String) (v : Value) (m : Mem) :
    Bool × Mem :=
  if !env.conf then (false, m)
  else if !env.up then (false, m)
  else (true, redisSet now ttl k v m)

/-- Embedding of safeRedisDel. -/
def safeRedisDel (env : RedisEnv) (k : String) (m : Mem) : Bool × Mem :=
  if !env.conf then (false, m)
  else if !env.up then (false, m)
  else (true, redisDel k m)

/-- Embedding of safeRedisKeys: the empty list when unconfigured or when
the backend call fails. -/
def safeRedisKeys (env : RedisEnv) (now : Nat) (pre : String) (m : Mem) : List String :=
  if !env.conf then []
  else if !env.up then []
  else redisKeysPref now pre m

/-- The two storage tiers of memory.js. -/
structure Store where
  redis : Mem
  mem : Mem
deriving DecidableEq

/-- Two-tier write, the shared shape of saveContext/setMode/openTicket/
savePreview: try the backend, fall back to the in-process map when the
backend write did not succeed. -/
def storeSet (env : RedisEnv) (now ttl : Nat) (k : String) (v : Value) (s : Store) : Store :=
  let wr := safeRedisSet env now ttl k v s.redis
  if wr.1 then Store.mk wr.2 s.mem
  else Store.mk wr.2 (memSet now ttl k v s.mem)

/-- Two-tier delete, the shared shape of the closeTicket delete and of
clearPreview. -/
def storeDel (env : RedisEnv) (k : String) (s : Store) : Store :=
  let dr := safeRedisDel env k s.redis
  if dr.1 then Store.mk dr.2 s.mem
  else Store.mk dr.2 (memDel k s.mem)

/-- JS truthiness of a nullable stored value: null and the empty string
are falsy, a JSON array payload is a nonempty string hence truthy. -/
def truthy : Option Value → Bool
  | Option.none => false
  | Option.some (Value.str s) => s ≠ ""
  | Option.some (Value.ctx _) => true

/-- Decode a ctx payload (JSON.parse of a stored turn list). -/
def valToCtxOpt : Option Value → List Turn
  | Option.some (Value.ctx l) => l
  | _ => []

/-- Read a stored value as the raw string it holds. -/
def valToStrOpt : Option Value → String
  | Option.some (Value.str s) => s
  | _ => ""

/-! ## memory.js public API -/

/-- Embedding of getContext: redis first (any truthy payload wins), else
the in-process fallback, else the empty context. -/
def getContext (env : RedisEnv) (now : Nat) (user : String) (s : Store) :
    List Turn × Store :=
  let key := "ctx:" ++ user
  let rr := safeRedisGet env now key s.redis
  if truthy rr.1 then (valToCtxOpt rr.1, Store.mk rr.2 s.mem)
  else
    let mr := memGet now key s.mem
    ((if truthy mr.1 then valToCtxOpt mr.1 else []), Store.mk rr.2 mr.2)

/-- Embedding of saveContext: persist the last 10 turns (slice(-10));
fallback to the in-process map when the backend write did not succeed. -/
def saveContext (env : RedisEnv) (now : Nat) (user : String) (ctx : List Turn)
    (s : Store) : Store :=
  storeSet env now TTL ("ctx:" ++ user) (Value.ctx (ctx.drop (ctx.length - 10))) s

/-- Embedding of getMode: redis first, else fallback, else the default
mode AI. -/
def getMode (env : RedisEnv) (now : Nat) (user : String) (s : Store) :
    String × Store :=
  let key := "mode:" ++ user
  let rr := safeRedisGet env now key s.redis
  if truthy rr.1 then (valToStrOpt rr.1, Store.mk rr.2 s.mem)
  else
    let mr := memGet now key s.mem
    ((if truthy mr.1 then valToStrOpt mr.1 else "AI"), Store.mk rr.2 mr.2)

/-- Embedding of setMode. -/
def setMode (env : RedisEnv) (now : Nat) (user mode : String) (s : Store) : Store :=
  storeSet env now TTL ("mode:" ++ user) (Value.str mode) s

/-- Embedding of openTicket. -/
def openTicket (env : RedisEnv) (now : Nat) (user : String) (s : Store) : Store :=
  storeSet env now TTL ("ticket:" ++ user) (Value.str "OPEN") s

/-- Embedding of closeTicket: delete the ticket key (fallback delete when
the backend delete did not succeed), then reset the mode to AI. -/
def closeTicket (env : RedisEnv) (now : Nat) (user : String) (s : Store) : Store :=
  setMode env now user "AI" (storeDel env ("ticket:" ++ user) s)

/-- Embedding of listTickets: backend key scan when redis is configured
(whether or not it is reachable), in-process key scan only when it is not
configured; the ticket: prefix is stripped from each key. -/
def listTickets (env : RedisEnv) (now : Nat) (s : Store) : List String :=
  let keys := if env.conf then safeRedisKeys env now "ticket:" s.redis
              else memKeys "ticket:" s.mem
  keys.map (fun k => stripFirst "ticket:" k)

/-- Embedding of savePreview (15-minute expiry). -/
def savePreview (env : RedisEnv) (now : Nat) (user text : String) (s : Store) : Store :=
  storeSet env now (60 * 15) ("preview:" ++ user) (Value.str text) s

/-- Embedding of getPreview: redis first (truthy), else the fallback read
which may itself be null. -/
def getPreview (env : RedisEnv) (now : Nat) (user : String) (s : Store) :
    Option String × Store :=
  let key := "preview:" ++ user
  let rr := safeRedisGet env now key s.redis
  if truthy rr.1 then (Option.some (valToStrOpt rr.1), Store.mk rr.2 s.mem)
  else
    let mr := memGet now key s.mem
    (((mr.1).map (fun v => valToStrOpt (Option.some v))), Store.mk rr.2 mr.2)

/-- Embedding of clearPreview. -/
def clearPreview (env : RedisEnv) (user : String) (s : Store) : Store :=
  storeDel env ("preview:" ++ user) s

/-! ## server.js environment and effect monad -/

/-- Configuration surface read by server.js from the environment. -/
structure Config where
  ownerId : Option String
  techId : Option String
  polishFlag : Bool
  previewFlag : Bool
  handoverText : String

/-- Per-run context: configuration, backend regime, wall clock, and the
outcome oracles of the fallible external calls (axios sends by attempt
index; the two OpenAI completions: the direct reply and the one inside
polishAgentText, each either a thrown error or a nullable content). -/
structure Ctx where
  cfg : Config
  renv : RedisEnv
  now : Nat
  sendOk : Nat → Bool
  aiOutcome : Except Unit (Option String)
  polishOutcome : Except Unit (Option String)

/-- Log tag for each store write the router performs. -/
inductive StoreOp where
  | wSetMode (u m : String)
  | wOpenTicket (u : String)
  | wDelTicket (u : String)
  | wSaveContext (u : String)
  | wSavePreview (u : String)
  | wClearPreview (u : String)
deriving DecidableEq, Repr

/-- Observable state threaded through one (or several) handler runs:
the two-tier store, the delivered messages in order, the number of
outbound delivery attempts, the number of completion calls, and the
store-write log. -/
structure RunState where
  store : Store
  sent : List (String × String)
  attempts : Nat
  aiCalls : Nat
  log : List StoreOp
deriving DecidableEq

/-- Effect monad of the async handler: state plus an escaping rejection. -/
def M (α : Type) : Type := RunState → RunState × Except Unit α

instance : Monad M where
  pure a := fun st => (st, Except.ok a)
  bind x f := fun st =>
    match x st with
    | (st1, Except.ok a) => f a st1
    | (st1, Except.error e) => (st1, Except.error e)

/-- Embedding of sendTextMessage (src/whatsapp.js): one axios POST; on
success the message is delivered, on failure the rejection escapes. -/
def mSend (ctx : Ctx) (toId text : String) : M Unit := fun st =>
  let i := st.attempts
  if ctx.sendOk i then
    (RunState.mk st.store (st.sent ++ [(toId, text)]) (i + 1) st.aiCalls st.log, Except.ok ())
  else
    (RunState.mk st.store st.sent (i + 1) st.aiCalls st.log, Except.error ())

/-- Embedding of gerarResposta (src/ai.js): one completion call; on
success the nullable content is coalesced to the empty string, on failure
the rejection escapes. -/
def mGerarResposta (outcome : Except Unit (Option String)) (_msgs : List Turn) :
    M String := fun st =>
  let st1 := RunState.mk st.store st.sent st.attempts (st.aiCalls + 1) st.log
  match outcome with
  | Except.ok content => (st1, Except.ok (content.getD ""))
  | Except.error e => (st1, Except.error e)

/-- Monadic wrapper of getContext. -/
def mGetContext (ctx : Ctx) (u : String) : M (List Turn) := fun st =>
  let r := getContext ctx.renv ctx.now u st.store
  (RunState.mk r.2 st.sent st.attempts st.aiCalls st.log, Except.ok r.1)

/-- Monadic wrapper of saveContext. -/
def mSaveContext (ctx : Ctx) (u : String) (l : List Turn) : M Unit := fun st =>
  (RunState.mk (saveContext ctx.renv ctx.now u l st.store) st.sent st.attempts st.aiCalls
    (st.log ++ [StoreOp.wSaveContext u]), Except.ok ())

/-- Monadic wrapper of getMode. -/
def mGetMode (ctx : Ctx) (u : String) : M String := fun st =>
  let r := getMode ctx.renv ctx.now u st.store
  (RunState.mk r.2 st.sent st.attempts st.aiCalls st.log, Except.ok r.1)

/-- Monadic wrapper of setMode. -/
def mSetMode (ctx : Ctx) (u m : String) : M Unit := fun st =>
  (RunState.mk (setMode ctx.renv ctx.now u m st.store) st.sent st.attempts st.aiCalls
    (st.log ++ [StoreOp.wSetMode u m]), Except.ok ())

/-- Monadic wrapper of openTicket. -/
def mOpenTicket (ctx : Ctx) (u : String) : M Unit := fun st =>
  (RunState.mk (openTicket ctx.renv ctx.now u st.store) st.sent st.attempts st.aiCalls
    (st.log ++ [StoreOp.wOpenTicket u]), Except.ok ())

/-- Monadic wrapper of closeTicket (it performs the ticket delete and the
mode reset, so it logs both writes). -/
def mCloseTicket (ctx : Ctx) (u : String) : M Unit := fun st =>
  (RunState.mk (closeTicket ctx.renv ctx.now u st.store) st.sent st.attempts st.aiCalls
    (st.log ++ [StoreOp.wDelTicket u, StoreOp.wSetMode u "AI"]), Except.ok ())

/-- Monadic wrapper of listTickets. -/
def mListTickets (ctx : Ctx) : M (List String) := fun st =>
  (st, Except.ok (listTickets ctx.renv ctx.now st.store))

/-- Monadic wrapper of savePreview. -/
def mSavePreview (ctx : Ctx) (u text : String) : M Unit := fun st =>
  (RunState.mk (savePreview ctx.renv ctx.now u text st.store) st.sent st.attempts st.aiCalls
    (st.log ++ [StoreOp.wSavePreview u]), Except.ok ())

/-- Monadic wrapper of getPreview. -/
def mGetPreview (ctx : Ctx) (u : String) : M (Option String) := fun st =>
  let r := getPreview ctx.renv ctx.now u st.store
  (RunState.mk r.2 st.sent st.attempts st.aiCalls st.log, Except.ok r.1)

/-- Monadic wrapper of clearPreview. -/
def mClearPreview (ctx : Ctx) (u : String) : M Unit := fun st =>
  (RunState.mk (clearPreview ctx.renv u st.store) st.sent st.attempts st.aiCalls
    (st.log ++ [StoreOp.wClearPreview u]), Except.ok ())

/-- A try/catch around a string-producing step, with a fixed fallback
value (the catch block of the polish call in server.js). -/
def catchWith (x : M String) (fallback : String) : M String := fun st =>
  match x st with
  | (st1, Except.ok v) => (st1, Except.ok v)
  | (st1, Except.error _) => (st1, Except.ok fallback)

/-! ## polish.js -/

/-- System instruction of polishAgentText (src/polish.js). -/
def polishSystemText : String :=
  "Você é um revisor de texto para atendimento ao cliente. " ++
  "Reescreva a mensagem do atendente em português formal, direto e objetivo. " ++
  "Não use emojis. Não use gírias. Não invente informações. " ++
  "Mantenha o sentido original. Se a mensagem já estiver adequada, devolva como está."

/-- Embedding of polishAgentText (src/polish.js): run the completion on
the rewrite prompt; an empty or too-short result falls back to the
original text, otherwise the result is trimmed and sliced to 1500
characters. -/
def polishAgentText (outcome : Except Unit (Option String)) (original : String) :
    M String := do
  let msgs : List Turn := [Turn.mk "system" polishSystemText, Turn.mk "user" original]
  let polished ← mGerarResposta outcome msgs
  if polished = "" || (jsTrim polished).length < 3 then
    pure original
  else
    pure (jsSliceTo 1500 (jsTrim polished))

/-! ## server.js message texts -/

/-- Help text sent on an unrecognized operator command. -/
def helpText : String :=
  "Comandos disponíveis:\n" ++
  "/resp 55XXXXXXXXX mensagem (gera prévia)\n" ++
  "/enviar 55XXXXXXXXX (confirma envio)\n" ++
  "/respraw 55XXXXXXXXX mensagem (envio direto sem polir)\n" ++
  "/abertos\n" ++
  "/fechar 55XXXXXXXXX"

/-- Reply to /enviar when no preview is staged. -/
def noPreviewText : String := "Não há mensagem em prévia para este cliente."

/-- Confirmation to the operator after a staged message is delivered. -/
def sentConfirmText : String := "Mensagem enviada ao cliente."

/-- Closure notice sent to the end user on /fechar. -/
def closeUserText : String :=
  "Atendimento encerrado. Caso precise, envie uma nova mensagem."

/-- Empty-state reply of /abertos. -/
def emptyTicketsText : String := "Nenhum atendimento em aberto."

/-- Preview notification shown to the operator in preview mode. -/
def previewNoticeText (toId finalText : String) : String :=
  "Prévia da mensagem ao cliente:\n\n" ++
  "\"" ++ finalText ++ "\"\n\n" ++
  "Para confirmar o envio:\n/enviar " ++ toId ++ "\n\n" ++
  "Para editar manualmente:\n/respraw " ++ toId ++ " nova mensagem"

/-- Handover notification sent to the owner. -/
def ownerHandoverNotice (sender text : String) : String :=
  "Solicitação de técnico.\n" ++
  "Cliente: " ++ sender ++ "\n" ++
  "Mensagem: \"" ++ text ++ "\"\n\n" ++
  "Responder: /resp " ++ sender ++ " sua mensagem\n" ++
  "Encerrar: /fechar " ++ sender ++ "\n" ++
  "Listar: /abertos"

/-- Handover notification sent to the technician. -/
def techHandoverNotice (sender text : String) : String :=
  "Solicitação de técnico.\n" ++
  "Cliente: " ++ sender ++ "\n" ++
  "Mensagem: \"" ++ text ++ "\"\n\n" ++
  "Responder: /resp " ++ sender ++ " sua mensagem"

/-- Forward of an end-user message while in human mode. -/
def humanForwardText (sender text : String) : String :=
  "Nova mensagem (atendimento humano).\n" ++
  "Cliente: " ++ sender ++ "\n" ++
  "Mensagem: \"" ++ text ++ "\""

/-- System persona turn prepended on the AI path. -/
def systemTurn : Turn :=
  Turn.mk "system"
    ("Você é um atendente profissional de uma loja de assistência técnica. " ++
     "Seja formal, direto e objetivo. " ++
     "Não use emojis, gírias ou linguagem informal. " ++
     "Faça perguntas curtas e claras quando precisar de informações. " ++
     "Responda apenas o necessário para resolver a solicitação.")

/-- Truthiness of an optional env-var string (unset or empty is falsy). -/
def optTruthy : Option String → Bool
  | Option.some s => s ≠ ""
  | Option.none => false

/-! ## server.js webhook handler -/

/-- Operator reply branch of the handler (the shared /resp and /respraw
block; isReply distinguishes the polish-eligible variant). -/
def replyBranch (ctx : Ctx) (sender toId msg : String) (isReply : Bool) : M Unit :=
  if toId = "" || msg = "" then pure ()
  else do
    let finalText ←
      if ctx.cfg.polishFlag && isReply then
        catchWith (polishAgentText ctx.polishOutcome msg) msg
      else
        pure msg
    if ctx.cfg.previewFlag then do
      mSavePreview ctx toId finalText
      mSend ctx sender (previewNoticeText toId finalText)
    else
      mSend ctx toId finalText

/-- Operator /enviar branch of the handler. -/
def sendBranch (ctx : Ctx) (sender toId : String) : M Unit :=
  if toId = "" then pure ()
  else do
    let preview ← mGetPreview ctx toId
    let pv := preview.getD ""
    if pv = "" then
      mSend ctx sender noPreviewText
    else do
      mSend ctx toId pv
      mClearPreview ctx toId
      mSend ctx sender sentConfirmText

/-- Operator /fechar branch of the handler. -/
def closeBranch (ctx : Ctx) (sender toId : String) : M Unit :=
  if toId = "" then pure ()
  else do
    mCloseTicket ctx toId
    mSend ctx toId closeUserText
    mSend ctx sender ("Atendimento encerrado para " ++ toId ++ ".")

/-- Operator /abertos branch of the handler. -/
def listBranch (ctx : Ctx) (sender : String) : M Unit := do
  let l ← mListTickets ctx
  let joined := jsJoin "\n" l
  mSend ctx sender (if joined = "" then emptyTicketsText else joined)

/-- Handover branch of the handler: set HUMAN mode, open a ticket, send
the fixed auto-text, then notify each configured operator. -/
def handoverBranch (ctx : Ctx) (sender text : String) : M Unit := do
  mSetMode ctx sender "HUMAN"
  mOpenTicket ctx sender
  mSend ctx sender ctx.cfg.handoverText
  if optTruthy ctx.cfg.ownerId then
    mSend ctx (ctx.cfg.ownerId.getD "") (ownerHandoverNotice sender text)
  else
    pure ()
  if optTruthy ctx.cfg.techId then
    mSend ctx (ctx.cfg.techId.getD "") (techHandoverNotice sender text)
  else
    pure ()

/-- Human-mode passthrough branch: forward the message to each configured
operator. -/
def humanModeBranch (ctx : Ctx) (sender text : String) : M Unit := do
  if optTruthy ctx.cfg.ownerId then
    mSend ctx (ctx.cfg.ownerId.getD "") (humanForwardText sender text)
  else
    pure ()
  if optTruthy ctx.cfg.techId then
    mSend ctx (ctx.cfg.techId.getD "") (humanForwardText sender text)
  else
    pure ()

/-- AI-assisted branch: load context, complete, reply, persist context. -/
def aiBranch (ctx : Ctx) (sender text : String) : M Unit := do
  let ctxTurns ← mGetContext ctx sender
  let msgs := systemTurn :: (ctxTurns ++ [Turn.mk "user" text])
  let reply ← mGerarResposta ctx.aiOutcome msgs
  mSend ctx sender reply
  mSaveContext ctx sender (ctxTurns ++ [Turn.mk "user" text, Turn.mk "assistant" reply])

/-- Embedding of the inbound-webhook handler body (src/server.js, after
signature verification and envelope extraction): operator command
dispatch, handover trigger, human-mode passthrough, or AI turn. -/
def webhookHandler (ctx : Ctx) (sender text0 : String) : M Unit :=
  let text := jsTrim text0
  let isAgent := ctx.cfg.ownerId == Option.some sender || ctx.cfg.techId == Option.some sender
  if isAgent then
    match parseCommand text with
    | Command.reply toId msg => replyBranch ctx sender toId msg true
    | Command.reply_raw toId msg => replyBranch ctx sender toId msg false
    | Command.send toId => sendBranch ctx sender toId
    | Command.close toId => closeBranch ctx sender toId
    | Command.list => listBranch ctx sender
    | Command.none => mSend ctx sender helpText
  else if wantsTechnician text then
    handoverBranch ctx sender text
  else do
    let mode ← mGetMode ctx sender
    if mode = "HUMAN" then
      humanModeBranch ctx sender text
    else
      aiBranch ctx sender text

/-- Result of one webhook run started from a given state. -/
def runHandler (ctx : Ctx) (sender text0 : String) (st : RunState) :
    RunState × Except Unit Unit :=
  webhookHandler ctx sender text0 st

/-- One inbound event of a trace: its run context plus the envelope. -/
structure Event where
  ctx : Ctx
  sender : String
  text : String

/-- Initial state: both tiers empty, nothing sent, nothing logged. -/
def initialState : RunState :=
  RunState.mk (Store.mk [] []) [] 0 0 []

/-- Process a list of inbound events from a starting state; each run keeps
the store and the log it received even when it ends in a rejection. -/
def processTrace (events : List Event) (st : RunState) : RunState :=
  match events with
  | [] => st
  | e :: rest => processTrace rest (runHandler e.ctx e.sender e.text st).1

/-- Presence of a live-or-stale ticket entry for a user in either tier. -/
def ticketPresent (u : String) (s : Store) : Bool :=
  (findEntry ("ticket:" ++ u) s.redis).isSome || (findEntry ("ticket:" ++ u) s.mem).isSome

/-! ## Observation helpers -/

/-- Value of an entry option as read at a given instant (absent or
expired reads as null). -/
def liveVal (now : Nat) : Option Entry → Option Value
  | Option.some e => if e.exp ≤ now then Option.none else Option.some e.val
  | Option.none => Option.none

/-- The pair of nullable values a two-tier read of a key can see at a
given instant: the backend view (null unless configured and up) and the
in-process view. -/
def readVal (env : RedisEnv) (now : Nat) (k : String) (s : Store) :
    Option Value × Option Value :=
  ((if env.conf && env.up then liveVal now (findEntry k s.redis) else Option.none),
   liveVal now (findEntry k s.mem))

/-- Mode value computed from a two-tier read (redis first, then the
fallback, then the default AI). -/
def modeOf (p : Option Value × Option Value) : String :=
  if truthy p.1 then valToStrOpt p.1
  else if truthy p.2 then valToStrOpt p.2
  else "AI"

/-- Context value computed from a two-tier read. -/
def ctxOf (p : Option Value × Option Value) : List Turn :=
  if truthy p.1 then valToCtxOpt p.1
  else if truthy p.2 then valToCtxOpt p.2
  else []

/-- Preview value computed from a two-tier read. -/
def prevOf (p : Option Value × Option Value) : Option String :=
  if truthy p.1 then Option.some (valToStrOpt p.1)
  else p.2.map (fun v => valToStrOpt (Option.some v))

/-- Observed mode of a user. -/
def getModeV (env : RedisEnv) (now : Nat) (u : String) (s : Store) : String :=
  (getMode env now u s).1

/-- Observed context of a user. -/
def getCtxV (env : RedisEnv) (now : Nat) (u : String) (s : Store) : List Turn :=
  (getContext env now u s).1

/-- Observed staged preview of a user. -/
def getPreviewV (env : RedisEnv) (now : Nat) (u : String) (s : Store) : Option String :=
  (getPreview env now u s).1

/-- Pure result of the polish step as the router sees it after its
try/catch: the polished text on success, the fallback on a thrown
completion error. -/
def polishFallback (o : Except Unit (Option String)) (orig fb : String) : String :=
  match o with
  | Except.error _ => fb
  | Except.ok c =>
    if c.getD "" = "" ∨ (jsTrim (c.getD "")).length < 3 then orig
    else jsSliceTo 1500 (jsTrim (c.getD ""))

/-- RunState after one completion call (the only state change of
gerarResposta is the call counter). -/
def bumpAi (st : RunState) : RunState :=
  RunState.mk st.store st.sent st.attempts (st.aiCalls + 1) st.log

/-- A HUMAN mode write for a user occurs strictly before an open-ticket
write for that user in a store-write log. -/
def humanBeforeOpen (u : String) (log : List StoreOp) : Prop :=
  ∃ i j, i < j ∧ log.get? i = Option.some (StoreOp.wSetMode u "HUMAN") ∧
    log.get? j = Option.some (StoreOp.wOpenTicket u)

/-- One-step evolution relation used for the ticket/mode-history
invariant: the log only grows, and a ticket entry present afterwards was
either already present or its opening is preceded in the final log by a
HUMAN mode write for the same user. -/
def c9step (u : String) (st st' : RunState) : Prop :=
  (ticketPresent u st'.store = true →
    ticketPresent u st.store = true ∨ humanBeforeOpen u st'.log) ∧
  (∃ l2, st'.log = st.log ++ l2)

/-! ## String key lemmas -/

theorem string_data_ext {s t : String} (h : s.data = t.data) : s = t := by
  cases s; cases t; exact congrArg String.mk h

theorem string_append_cancel_left {p u w : String} (h : p ++ u = p ++ w) : u = w := by
  have h2 := congrArg String.data h
  rw [String.data_append, String.data_append] at h2
  exact string_data_ext (List.append_cancel_left h2)

theorem string_append_ne_of_head {a b u w : String} {c d : Char} {ra rb : List Char}
    (ha : a.data = c :: ra) (hb : b.data = d :: rb) (hcd : c ≠ d) : a ++ u ≠ b ++ w := by
  intro h
  have h2 := congrArg String.data h
  rw [String.data_append, String.data_append, ha, hb] at h2
  simp only [List.cons_append, List.cons.injEq] at h2
  exact hcd h2.1

theorem modeKey_ne_ticketKey (u w : String) : "mode:" ++ u ≠ "ticket:" ++ w :=
  string_append_ne_of_head (show ("mode:" : String).data = 'm' :: "ode:".data from rfl)
    (show ("ticket:" : String).data = 't' :: "icket:".data from rfl) (by decide)

theorem ticketKey_ne_modeKey (u w : String) : "ticket:" ++ u ≠ "mode:" ++ w :=
  string_append_ne_of_head (show ("ticket:" : String).data = 't' :: "icket:".data from rfl)
    (show ("mode:" : String).data = 'm' :: "ode:".data from rfl) (by decide)

theorem modeKey_ne_previewKey (u w : String) : "mode:" ++ u ≠ "preview:" ++ w :=
  string_append_ne_of_head (show ("mode:" : String).data = 'm' :: "ode:".data from rfl)
    (show ("preview:" : String).data = 'p' :: "review:".data from rfl) (by decide)

theorem modeKey_ne_ctxKey (u w : String) : "mode:" ++ u ≠ "ctx:" ++ w :=
  string_append_ne_of_head (show ("mode:" : String).data = 'm' :: "ode:".data from rfl)
    (show ("ctx:" : String).data = 'c' :: "tx:".data from rfl) (by decide)

theorem ticketKey_ne_previewKey (u w : String) : "ticket:" ++ u ≠ "preview:" ++ w :=
  string_append_ne_of_head (show ("ticket:" : String).data = 't' :: "icket:".data from rfl)
    (show ("preview:" : String).data = 'p' :: "review:".data from rfl) (by decide)

theorem ticketKey_ne_ctxKey (u w : String) : "ticket:" ++ u ≠ "ctx:" ++ w :=
  string_append_ne_of_head (show ("ticket:" : String).data = 't' :: "icket:".data from rfl)
    (show ("ctx:" : String).data = 'c' :: "tx:".data from rfl) (by decide)

theorem previewKey_ne_ticketKey (u w : String) : "preview:" ++ u ≠ "ticket:" ++ w :=
  string_append_ne_of_head (show ("preview:" : String).data = 'p' :: "review:".data from rfl)
    (show ("ticket:" : String).data = 't' :: "icket:".data from rfl) (by decide)

theorem ctxKey_ne_ticketKey (u w : String) : "ctx:" ++ u ≠ "ticket:" ++ w :=
  string_append_ne_of_head (show ("ctx:" : String).data = 'c' :: "tx:".data from rfl)
    (show ("ticket:" : String).data = 't' :: "icket:".data from rfl) (by decide)

theorem previewKey_ne_modeKey (u w : String) : "preview:" ++ u ≠ "mode:" ++ w :=
  string_append_ne_of_head (show ("preview:" : String).data = 'p' :: "review:".data from rfl)
    (show ("mode:" : String).data = 'm' :: "ode:".data from rfl) (by decide)

theorem ctxKey_ne_modeKey (u w : String) : "ctx:" ++ u ≠ "mode:" ++ w :=
  string_append_ne_of_head (show ("ctx:" : String).data = 'c' :: "tx:".data from rfl)
    (show ("mode:" : String).data = 'm' :: "ode:".data from rfl) (by decide)

theorem sameKindKey_inj {p u w : String} (h : p ++ u = p ++ w) : u = w :=
  string_append_cancel_left h

/-! ## Tier-level lemmas -/

theorem findEntry_nil (k : String) : findEntry k ([] : Mem) = Option.none := rfl

theorem findEntry_cons_pos {e : Entry} {k : String} (hk : e.key = k) (rest : Mem) :
    findEntry k (e :: rest) = Option.some e :=
  List.find?_cons_of_pos rest (by simp [hk])

theorem findEntry_cons_neg {e : Entry} {k : String} (hk : ¬ e.key = k) (rest : Mem) :
    findEntry k (e :: rest) = findEntry k rest :=
  List.find?_cons_of_neg rest (by simp [hk])

theorem findEntry_map_self (k : String) (E : Entry) (hE : E.key = k) (m : Mem) :
    findEntry k (m.map (fun e => if e.key = k then E else e)) =
      if (findEntry k m).isSome then Option.some E else Option.none := by
  induction m with
  | nil => simp [findEntry]
  | cons e rest ih =>
    by_cases hk : e.key = k
    · rw [List.map_cons, if_pos hk, findEntry_cons_pos hE, findEntry_cons_pos hk]
      simp
    · rw [List.map_cons, if_neg hk, findEntry_cons_neg hk, findEntry_cons_neg hk, ih]

theorem findEntry_map_ne {k' k : String} (h : k' ≠ k) (E : Entry) (hE : E.key = k)
    (m : Mem) :
    findEntry k' (m.map (fun e => if e.key = k then E else e)) = findEntry k' m := by
  induction m with
  | nil => rfl
  | cons e rest ih =>
    by_cases hk : e.key = k
    · have h1 : ¬ E.key = k' := by rw [hE]; exact fun hh => h hh.symm
      have h2 : ¬ e.key = k' := by rw [hk]; exact fun hh => h hh.symm
      rw [List.map_cons, if_pos hk, findEntry_cons_neg h1, findEntry_cons_neg h2, ih]
    · rw [List.map_cons, if_neg hk]
      by_cases h2 : e.key = k'
      · rw [findEntry_cons_pos h2, findEntry_cons_pos h2]
      · rw [findEntry_cons_neg h2, findEntry_cons_neg h2, ih]

theorem findEntry_append (k : String) (m1 m2 : Mem) :
    findEntry k (m1 ++ m2) = (findEntry k m1).or (findEntry k m2) := by
  simp [findEntry, List.find?_append]

theorem findEntry_memSet_self (now ttl : Nat) (k : String) (v : Value) (m : Mem) :
    findEntry k (memSet now ttl k v m) = Option.some (Entry.mk k v (now + ttl)) := by
  unfold memSet
  by_cases hs : (findEntry k m).isSome
  · rw [if_pos hs, findEntry_map_self k _ rfl, if_pos hs]
  · rw [if_neg hs, findEntry_append, Option.not_isSome_iff_eq_none.mp hs]
    have h1 : findEntry k ([Entry.mk k v (now + ttl)] : Mem) =
        Option.some (Entry.mk k v (now + ttl)) := findEntry_cons_pos rfl []
    rw [h1]
    rfl

theorem findEntry_memSet_ne (now ttl : Nat) {k' k : String} (h : k' ≠ k) (v : Value)
    (m : Mem) : findEntry k' (memSet now ttl k v m) = findEntry k' m := by
  unfold memSet
  by_cases hs : (findEntry k m).isSome
  · rw [if_pos hs, findEntry_map_ne h _ rfl]
  · rw [if_neg hs, findEntry_append, findEntry_cons_neg (fun hh => h hh.symm)]
    rw [findEntry_nil, Option.or_none]

theorem findEntry_memDel_self (k : String) (m : Mem) :
    findEntry k (memDel k m) = Option.none := by
  unfold memDel
  induction m with
  | nil => rfl
  | cons e rest ih =>
    by_cases hk : e.key = k
    · rw [List.filter_cons_of_neg (by simp [hk])]
      exact ih
    · rw [List.filter_cons_of_pos (by simp [hk]), findEntry_cons_neg hk]
      exact ih

theorem findEntry_memDel_ne {k' k : String} (h : k' ≠ k) (m : Mem) :
    findEntry k' (memDel k m) = findEntry k' m := by
  unfold memDel
  induction m with
  | nil => rfl
  | cons e rest ih =>
    by_cases hk : e.key = k
    · have h2 : ¬ e.key = k' := by rw [hk]; exact fun hh => h hh.symm
      rw [List.filter_cons_of_neg (by simp [hk]), findEntry_cons_neg h2]
      exact ih
    · rw [List.filter_cons_of_pos (by simp [hk])]
      by_cases h2 : e.key = k'
      · rw [findEntry_cons_pos h2, findEntry_cons_pos h2]
      · rw [findEntry_cons_neg h2, findEntry_cons_neg h2, ih]

theorem memGet_fst (now : Nat) (k : String) (m : Mem) :
    (memGet now k m).1 = liveVal now (findEntry k m) := by
  unfold memGet liveVal
  cases findEntry k m with
  | none => rfl
  | some e => by_cases he : e.exp ≤ now <;> simp [he]

theorem memGet_snd_cases (now : Nat) (k : String) (m : Mem) :
    (memGet now k m).2 = m ∨ (memGet now k m).2 = memDel k m := by
  unfold memGet
  cases findEntry k m with
  | none => exact Or.inl rfl
  | some e =>
    by_cases he : e.exp ≤ now
    · exact Or.inr (by simp [he, memDel])
    · exact Or.inl (by simp [he])

theorem memGet_snd_expired (now : Nat) (k : String) (m : Mem) {e : Entry}
    (hf : findEntry k m = Option.some e) (he : e.exp ≤ now) :
    (memGet now k m).2 = memDel k m := by
  unfold memGet
  rw [hf]
  simp [he, memDel]

theorem liveVal_findEntry_memGet_snd (now : Nat) (k' k : String) (m : Mem) :
    liveVal now (findEntry k' ((memGet now k m).2)) = liveVal now (findEntry k' m) := by
  unfold memGet
  cases hf : findEntry k m with
  | none => rfl
  | some e =>
    by_cases he : e.exp ≤ now
    · simp only [he, if_true]
      by_cases hk : k' = k
      · subst hk
        have h1 : findEntry k' (memDel k' m) = Option.none := findEntry_memDel_self k' m
        unfold memDel at h1
        rw [h1, hf]
        simp [liveVal, he]
      · have := findEntry_memDel_ne hk m
        unfold memDel at this
        rw [this]
    · simp only [he, if_false]

theorem safeRedisSet_fst (env : RedisEnv) (now ttl : Nat) (k : String) (v : Value)
    (m : Mem) : (safeRedisSet env now ttl k v m).1 = (env.conf && env.up) := by
  unfold safeRedisSet
  cases env.conf <;> cases env.up <;> simp

theorem safeRedisSet_snd (env : RedisEnv) (now ttl : Nat) (k : String) (v : Value)
    (m : Mem) : (safeRedisSet env now ttl k v m).2 =
      if env.conf && env.up then memSet now ttl k v m else m := by
  unfold safeRedisSet redisSet
  cases env.conf <;> cases env.up <;> simp

theorem safeRedisDel_fst (env : RedisEnv) (k : String) (m : Mem) :
    (safeRedisDel env k m).1 = (env.conf && env.up) := by
  unfold safeRedisDel
  cases env.conf <;> cases env.up <;> simp

theorem safeRedisDel_snd (env : RedisEnv) (k : String) (m : Mem) :
    (safeRedisDel env k m).2 = if env.conf && env.up then memDel k m else m := by
  unfold safeRedisDel redisDel
  cases env.conf <;> cases env.up <;> simp

theorem safeRedisGet_fst (env : RedisEnv) (now : Nat) (k : String) (m : Mem) :
    (safeRedisGet env now k m).1 =
      if env.conf && env.up then liveVal now (findEntry k m) else Option.none := by
  unfold safeRedisGet redisGet
  cases env.conf <;> cases env.up <;> simp [memGet_fst]

theorem safeRedisGet_snd (env : RedisEnv) (now : Nat) (k : String) (m : Mem) :
    (safeRedisGet env now k m).2 =
      if env.conf && env.up then (memGet now k m).2 else m := by
  unfold safeRedisGet redisGet
  cases env.conf <;> cases env.up <;> simp

theorem storeSet_redis (env : RedisEnv) (now ttl : Nat) (k : String) (v : Value)
    (s : Store) : (storeSet env now ttl k v s).redis =
      if env.conf && env.up then memSet now ttl k v s.redis else s.redis := by
  simp only [storeSet, safeRedisSet_fst, safeRedisSet_snd]
  by_cases h : env.conf && env.up <;> simp [h]

theorem storeSet_mem (env : RedisEnv) (now ttl : Nat) (k : String) (v : Value)
    (s : Store) : (storeSet env now ttl k v s).mem =
      if env.conf && env.up then s.mem else memSet now ttl k v s.mem := by
  simp only [storeSet, safeRedisSet_fst, safeRedisSet_snd]
  by_cases h : env.conf && env.up <;> simp [h]

theorem storeDel_redis (env : RedisEnv) (k : String) (s : Store) :
    (storeDel env k s).redis =
      if env.conf && env.up then memDel k s.redis else s.redis := by
  simp only [storeDel, safeRedisDel_fst, safeRedisDel_snd]
  by_cases h : env.conf && env.up <;> simp [h]

theorem storeDel_mem (env : RedisEnv) (k : String) (s : Store) :
    (storeDel env k s).mem =
      if env.conf && env.up then s.mem else memDel k s.mem := by
  simp only [storeDel, safeRedisDel_fst, safeRedisDel_snd]
  by_cases h : env.conf && env.up <;> simp [h]

theorem readVal_storeSet_self (env : RedisEnv) (now ttl now' : Nat) (k : String)
    (v : Value) (s : Store) :
    readVal env now' k (storeSet env now ttl k v s) =
      if env.conf && env.up then
        ((if now + ttl ≤ now' then Option.none else Option.some v),
          liveVal now' (findEntry k s.mem))
      else
        (Option.none, (if now + ttl ≤ now' then Option.none else Option.some v)) := by
  unfold readVal
  rw [storeSet_redis, storeSet_mem]
  by_cases h : env.conf && env.up
  · simp only [h, if_true]
    rw [findEntry_memSet_self]
    simp [liveVal]
  · simp [h]
    rw [findEntry_memSet_self]
    simp [liveVal]

theorem readVal_storeSet_ne (env : RedisEnv) (now ttl now' : Nat) {k' k : String}
    (h : k' ≠ k) (v : Value) (s : Store) :
    readVal env now' k' (storeSet env now ttl k v s) = readVal env now' k' s := by
  unfold readVal
  rw [storeSet_redis, storeSet_mem]
  by_cases hc : env.conf && env.up
  · simp only [hc, if_true]
    rw [findEntry_memSet_ne now ttl h]
  · simp [hc]
    rw [findEntry_memSet_ne now ttl h]

theorem readVal_storeDel_self (env : RedisEnv) (now' : Nat) (k : String) (s : Store) :
    readVal env now' k (storeDel env k s) =
      (Option.none,
        if env.conf && env.up then liveVal now' (findEntry k s.mem) else Option.none) := by
  unfold readVal
  rw [storeDel_redis, storeDel_mem]
  by_cases h : env.conf && env.up
  · simp only [h, if_true]
    rw [findEntry_memDel_self]
    simp [liveVal]
  · simp [h]
    rw [findEntry_memDel_self]
    simp [liveVal]

theorem readVal_storeDel_ne (env : RedisEnv) (now' : Nat) {k' k : String}
    (h : k' ≠ k) (s : Store) :
    readVal env now' k' (storeDel env k s) = readVal env now' k' s := by
  unfold readVal
  rw [storeDel_redis, storeDel_mem]
  by_cases hc : env.conf && env.up
  · simp only [hc, if_true]
    rw [findEntry_memDel_ne h]
  · simp [hc]
    rw [findEntry_memDel_ne h]

theorem getModeV_eq (env : RedisEnv) (now : Nat) (u : String) (s : Store) :
    getModeV env now u s = modeOf (readVal env now ("mode:" ++ u) s) := by
  simp only [getModeV, getMode, modeOf, readVal, safeRedisGet_fst, memGet_fst]
  rw [apply_ite Prod.fst]

theorem getCtxV_eq (env : RedisEnv) (now : Nat) (u : String) (s : Store) :
    getCtxV env now u s = ctxOf (readVal env now ("ctx:" ++ u) s) := by
  simp only [getCtxV, getContext, ctxOf, readVal, safeRedisGet_fst, memGet_fst]
  rw [apply_ite Prod.fst]

theorem getPreviewV_eq (env : RedisEnv) (now : Nat) (u : String) (s : Store) :
    getPreviewV env now u s = prevOf (readVal env now ("preview:" ++ u) s) := by
  simp only [getPreviewV, getPreview, prevOf, readVal, safeRedisGet_fst, memGet_fst]
  rw [apply_ite Prod.fst]

theorem readVal_getMode_post (env : RedisEnv) (now : Nat) (k w : String) (s : Store) :
    readVal env now k ((getMode env now w s).2) = readVal env now k s := by
  simp only [getMode, readVal, safeRedisGet_snd]
  by_cases h : truthy (safeRedisGet env now ("mode:" ++ w) s.redis).1 <;>
    by_cases hc : env.conf && env.up <;>
    simp [h, hc, liveVal_findEntry_memGet_snd]

theorem readVal_getContext_post (env : RedisEnv) (now : Nat) (k w : String) (s : Store) :
    readVal env now k ((getContext env now w s).2) = readVal env now k s := by
  simp only [getContext, readVal, safeRedisGet_snd]
  by_cases h : truthy (safeRedisGet env now ("ctx:" ++ w) s.redis).1 <;>
    by_cases hc : env.conf && env.up <;>
    simp [h, hc, liveVal_findEntry_memGet_snd]

theorem readVal_getPreview_post (env : RedisEnv) (now : Nat) (k w : String) (s : Store) :
    readVal env now k ((getPreview env now w s).2) = readVal env now k s := by
  simp only [getPreview, readVal, safeRedisGet_snd]
  by_cases h : truthy (safeRedisGet env now ("preview:" ++ w) s.redis).1 <;>
    by_cases hc : env.conf && env.up <;>
    simp [h, hc, liveVal_findEntry_memGet_snd]

theorem getModeV_setMode_self (env : RedisEnv) (now : Nat) (u m : String)
    (hm : m ≠ "") (s : Store) : getModeV env now u (setMode env now u m s) = m := by
  rw [getModeV_eq]
  unfold setMode
  rw [readVal_storeSet_self]
  have hexp : ¬ (now + TTL ≤ now) := by
    unfold TTL
    omega
  by_cases hc : env.conf && env.up <;>
    simp [hc, hexp, modeOf, truthy, valToStrOpt, hm]

/-! ## Monad run lemmas -/

theorem bind_run {α β : Type} (x : M α) (f : α → M β) (st : RunState) :
    (x >>= f) st = match x st with
      | (st1, Except.ok a) => f a st1
      | (st1, Except.error e) => (st1, Except.error e) := rfl

theorem pure_run {α : Type} (a : α) (st : RunState) :
    (pure a : M α) st = (st, Except.ok a) := rfl

theorem mSend_run_ok {ctx : Ctx} {st : RunState} (h : ctx.sendOk st.attempts = true)
    (a b : String) :
    mSend ctx a b st =
      (RunState.mk st.store (st.sent ++ [(a, b)]) (st.attempts + 1) st.aiCalls st.log,
        Except.ok ()) := by
  unfold mSend
  rw [if_pos h]

theorem mSend_run_fail {ctx : Ctx} {st : RunState} (h : ctx.sendOk st.attempts = false)
    (a b : String) :
    mSend ctx a b st =
      (RunState.mk st.store st.sent (st.attempts + 1) st.aiCalls st.log,
        Except.error ()) := by
  unfold mSend
  rw [if_neg (by simp [h])]

theorem polishAgentText_run (o : Except Unit (Option String)) (orig : String)
    (st : RunState) :
    polishAgentText o orig st =
      (bumpAi st,
        match o with
        | Except.ok c =>
          Except.ok (if c.getD "" = "" ∨ (jsTrim (c.getD "")).length < 3 then orig
            else jsSliceTo 1500 (jsTrim (c.getD "")))
        | Except.error e => Except.error e) := by
  cases o with
  | ok c =>
    by_cases h : c.getD "" = "" ∨ (jsTrim (c.getD "")).length < 3 <;>
      simp [polishAgentText, mGerarResposta, bind_run, pure_run, bumpAi, h]
  | error e => simp [polishAgentText, mGerarResposta, bind_run, bumpAi]

theorem catchWith_polish_run (o : Except Unit (Option String)) (orig fb : String)
    (st : RunState) :
    catchWith (polishAgentText o orig) fb st =
      (bumpAi st, Except.ok (polishFallback o orig fb)) := by
  cases o with
  | ok c =>
    by_cases h : c.getD "" = "" ∨ (jsTrim (c.getD "")).length < 3 <;>
      simp only [catchWith, polishAgentText_run, polishFallback, h, if_pos, if_neg,
        not_false_iff, if_true, if_false]
  | error e =>
    simp only [catchWith, polishAgentText_run, polishFallback]

/-! ## Branch completion lemmas (no escaping rejection when delivery and
completion succeed) -/

theorem replyBranch_ok (ctx : Ctx) (sender toU msg : String) (isReply : Bool)
    (st : RunState) (hs : ∀ i, ctx.sendOk i = true) :
    (replyBranch ctx sender toU msg isReply st).2 = Except.ok () := by
  unfold replyBranch
  by_cases h0 : toU = "" ∨ msg = ""
  · simp [h0, pure_run]
  · by_cases hpol : (ctx.cfg.polishFlag && isReply) = true <;>
    by_cases hprev : ctx.cfg.previewFlag = true <;>
      simp [h0, hpol, hprev, bind_run, pure_run, catchWith_polish_run, mSavePreview,
        mSend, hs]

theorem sendBranch_ok (ctx : Ctx) (sender toU : String) (st : RunState)
    (hs : ∀ i, ctx.sendOk i = true) :
    (sendBranch ctx sender toU st).2 = Except.ok () := by
  unfold sendBranch
  by_cases h0 : toU = ""
  · simp [h0, pure_run]
  · by_cases hpv : ((getPreview ctx.renv ctx.now toU st.store).1.getD "") = "" <;>
      simp [h0, hpv, bind_run, pure_run, mGetPreview, mClearPreview, mSend, hs]

theorem closeBranch_ok (ctx : Ctx) (sender toU : String) (st : RunState)
    (hs : ∀ i, ctx.sendOk i = true) :
    (closeBranch ctx sender toU st).2 = Except.ok () := by
  unfold closeBranch
  by_cases h0 : toU = ""
  · simp [h0, pure_run]
  · simp [h0, bind_run, pure_run, mCloseTicket, mSend, hs]

theorem listBranch_ok (ctx : Ctx) (sender : String) (st : RunState)
    (hs : ∀ i, ctx.sendOk i = true) :
    (listBranch ctx sender st).2 = Except.ok () := by
  unfold listBranch
  simp [bind_run, pure_run, mListTickets, mSend, hs]

theorem handoverBranch_ok (ctx : Ctx) (sender text : String) (st : RunState)
    (hs : ∀ i, ctx.sendOk i = true) :
    (handoverBranch ctx sender text st).2 = Except.ok () := by
  unfold handoverBranch
  by_cases ho : optTruthy ctx.cfg.ownerId = true <;>
  by_cases ht : optTruthy ctx.cfg.techId = true <;>
    simp [ho, ht, bind_run, pure_run, mSetMode, mOpenTicket, mSend, hs]

theorem humanModeBranch_ok (ctx : Ctx) (sender text : String) (st : RunState)
    (hs : ∀ i, ctx.sendOk i = true) :
    (humanModeBranch ctx sender text st).2 = Except.ok () := by
  unfold humanModeBranch
  by_cases ho : optTruthy ctx.cfg.ownerId = true <;>
  by_cases ht : optTruthy ctx.cfg.techId = true <;>
    simp [ho, ht, bind_run, pure_run, mSend, hs]

theorem aiBranch_ok (ctx : Ctx) (sender text : String) (st : RunState)
    (hs : ∀ i, ctx.sendOk i = true) {c : Option String}
    (hai : ctx.aiOutcome = Except.ok c) :
    (aiBranch ctx sender text st).2 = Except.ok () := by
  unfold aiBranch
  simp [bind_run, pure_run, mGetContext, mGerarResposta, mSaveContext, mSend, hs, hai]

theorem webhookHandler_ok (ctx : Ctx) (sender text0 : String) (st : RunState)
    (hs : ∀ i, ctx.sendOk i = true) {c : Option String}
    (hai : ctx.aiOutcome = Except.ok c) :
    (webhookHandler ctx sender text0 st).2 = Except.ok () := by
  unfold webhookHandler
  by_cases hAgent : (ctx.cfg.ownerId == Option.some sender ||
      ctx.cfg.techId == Option.some sender) = true
  · rw [if_pos hAgent]
    cases hc : parseCommand (jsTrim text0) with
    | reply toU msg => exact replyBranch_ok ctx sender toU msg true st hs
    | reply_raw toU msg => exact replyBranch_ok ctx sender toU msg false st hs
    | send toU => exact sendBranch_ok ctx sender toU st hs
    | close toU => exact closeBranch_ok ctx sender toU st hs
    | list => exact listBranch_ok ctx sender st hs
    | none => simp [mSend, hs]
  · rw [if_neg hAgent]
    by_cases hw : wantsTechnician (jsTrim text0) = true
    · rw [if_pos hw]
      exact handoverBranch_ok ctx sender (jsTrim text0) st hs
    · rw [if_neg hw]
      by_cases hm : (getMode ctx.renv ctx.now sender st.store).1 = "HUMAN"
      · simp only [bind_run, mGetMode, hm, if_pos]
        exact humanModeBranch_ok ctx sender (jsTrim text0) _ hs
      · simp only [bind_run, mGetMode, hm, if_neg, if_false]
        exact aiBranch_ok ctx sender (jsTrim text0) _ hs hai

/-! ## Mode observation frame lemmas -/

theorem modeKey_ne_of_user_ne {u w : String} (h : u ≠ w) :
    ("mode:" ++ u : String) ≠ "mode:" ++ w :=
  fun hh => h (sameKindKey_inj hh)

theorem getModeV_storeSet_frame (env : RedisEnv) (now ttl : Nat) {u k : String}
    (h : ("mode:" ++ u : String) ≠ k) (v : Value) (s : Store) :
    getModeV env now u (storeSet env now ttl k v s) = getModeV env now u s := by
  rw [getModeV_eq, getModeV_eq, readVal_storeSet_ne env now ttl now h]

theorem getModeV_storeDel_frame (env : RedisEnv) (now : Nat) {u k : String}
    (h : ("mode:" ++ u : String) ≠ k) (s : Store) :
    getModeV env now u (storeDel env k s) = getModeV env now u s := by
  rw [getModeV_eq, getModeV_eq, readVal_storeDel_ne env now h]

theorem getModeV_getMode_post (env : RedisEnv) (now : Nat) (u w : String) (s : Store) :
    getModeV env now u ((getMode env now w s).2) = getModeV env now u s := by
  rw [getModeV_eq, getModeV_eq, readVal_getMode_post]

theorem getModeV_getContext_post (env : RedisEnv) (now : Nat) (u w : String)
    (s : Store) :
    getModeV env now u ((getContext env now w s).2) = getModeV env now u s := by
  rw [getModeV_eq, getModeV_eq, readVal_getContext_post]

theorem getModeV_getPreview_post (env : RedisEnv) (now : Nat) (u w : String)
    (s : Store) :
    getModeV env now u ((getPreview env now w s).2) = getModeV env now u s := by
  rw [getModeV_eq, getModeV_eq, readVal_getPreview_post]

theorem getModeV_setMode_other (env : RedisEnv) (now : Nat) {u w : String}
    (h : u ≠ w) (m : String) (s : Store) :
    getModeV env now u (setMode env now w m s) = getModeV env now u s := by
  unfold setMode
  exact getModeV_storeSet_frame env now TTL (modeKey_ne_of_user_ne h) _ s

theorem getModeV_saveContext (env : RedisEnv) (now : Nat) (u w : String)
    (l : List Turn) (s : Store) :
    getModeV env now u (saveContext env now w l s) = getModeV env now u s := by
  unfold saveContext
  exact getModeV_storeSet_frame env now TTL (modeKey_ne_ctxKey u w) _ s

theorem getModeV_savePreview (env : RedisEnv) (now : Nat) (u w t : String) (s : Store) :
    getModeV env now u (savePreview env now w t s) = getModeV env now u s := by
  unfold savePreview
  exact getModeV_storeSet_frame env now (60 * 15) (modeKey_ne_previewKey u w) _ s

theorem getModeV_clearPreview (env : RedisEnv) (now : Nat) (u w : String) (s : Store) :
    getModeV env now u (clearPreview env w s) = getModeV env now u s := by
  unfold clearPreview
  exact getModeV_storeDel_frame env now (modeKey_ne_previewKey u w) s

theorem getModeV_openTicket (env : RedisEnv) (now : Nat) (u w : String) (s : Store) :
    getModeV env now u (openTicket env now w s) = getModeV env now u s := by
  unfold openTicket
  exact getModeV_storeSet_frame env now TTL (modeKey_ne_ticketKey u w) _ s

theorem getModeV_closeTicket_self (env : RedisEnv) (now : Nat) (u : String)
    (s : Store) : getModeV env now u (closeTicket env now u s) = "AI" := by
  unfold closeTicket
  exact getModeV_setMode_self env now u "AI" (by decide) _

theorem getModeV_closeTicket_other (env : RedisEnv) (now : Nat) {u w : String}
    (h : u ≠ w) (s : Store) :
    getModeV env now u (closeTicket env now w s) = getModeV env now u s := by
  unfold closeTicket
  rw [getModeV_setMode_other env now h "AI",
    getModeV_storeDel_frame env now (modeKey_ne_ticketKey u w)]

theorem mSend_store (ctx : Ctx) (a b : String) (st : RunState) :
    (mSend ctx a b st).1.store = st.store := by
  by_cases h : ctx.sendOk st.attempts = true <;> simp [mSend, h]

theorem mSend_log (ctx : Ctx) (a b : String) (st : RunState) :
    (mSend ctx a b st).1.log = st.log := by
  by_cases h : ctx.sendOk st.attempts = true <;> simp [mSend, h]

/-! ## Per-branch mode effect lemmas -/

theorem mode_bind_mSend (ctx : Ctx) (u a b : String) (g : Unit → M Unit) (st : RunState)
    (hg : ∀ st', getModeV ctx.renv ctx.now u ((g () st').1.store) =
      getModeV ctx.renv ctx.now u st'.store) :
    getModeV ctx.renv ctx.now u (((mSend ctx a b) >>= g) st).1.store =
      getModeV ctx.renv ctx.now u st.store := by
  rw [bind_run]
  by_cases h : ctx.sendOk st.attempts = true
  · rw [mSend_run_ok h]
    simpa using hg _
  · rw [mSend_run_fail (by simpa using h)]

theorem mSend_mode (ctx : Ctx) (u a b : String) (st : RunState) :
    getModeV ctx.renv ctx.now u ((mSend ctx a b st).1.store) =
      getModeV ctx.renv ctx.now u st.store := by
  rw [mSend_store]

theorem replyBranch_mode (ctx : Ctx) (u sender toU msg : String) (r : Bool)
    (st : RunState) :
    getModeV ctx.renv ctx.now u ((replyBranch ctx sender toU msg r st).1.store) =
      getModeV ctx.renv ctx.now u st.store := by
  have hcont : ∀ (ft : String) (st' : RunState), getModeV ctx.renv ctx.now u
      ((((if ctx.cfg.previewFlag = true then
            (mSavePreview ctx toU ft >>= fun _ => mSend ctx sender (previewNoticeText toU ft))
          else mSend ctx toU ft)) st').1.store) =
      getModeV ctx.renv ctx.now u st'.store := by
    intro ft st'
    by_cases hprev : ctx.cfg.previewFlag = true
    · rw [if_pos hprev, bind_run]
      have h1 : mSavePreview ctx toU ft st' =
          (RunState.mk (savePreview ctx.renv ctx.now toU ft st'.store) st'.sent
            st'.attempts st'.aiCalls (st'.log ++ [StoreOp.wSavePreview toU]),
            Except.ok ()) := rfl
      rw [h1]
      rw [mSend_store]
      exact getModeV_savePreview ctx.renv ctx.now u toU ft st'.store
    · rw [if_neg hprev, mSend_store]
  unfold replyBranch
  by_cases h0 : (decide (toU = "") || decide (msg = "")) = true
  · rw [if_pos h0]
    rfl
  · rw [if_neg h0]
    dsimp only
    by_cases hpol : (ctx.cfg.polishFlag && r) = true
    · rw [if_pos hpol, bind_run, catchWith_polish_run]
      exact hcont _ _
    · rw [if_neg hpol, bind_run, pure_run]
      exact hcont _ _

theorem mSavePreview_run (ctx : Ctx) (u t : String) (st : RunState) :
    mSavePreview ctx u t st =
      (RunState.mk (savePreview ctx.renv ctx.now u t st.store) st.sent st.attempts
        st.aiCalls (st.log ++ [StoreOp.wSavePreview u]), Except.ok ()) := rfl

theorem mGetPreview_run (ctx : Ctx) (u : String) (st : RunState) :
    mGetPreview ctx u st =
      (RunState.mk (getPreview ctx.renv ctx.now u st.store).2 st.sent st.attempts
        st.aiCalls st.log, Except.ok (getPreview ctx.renv ctx.now u st.store).1) := rfl

theorem mClearPreview_run (ctx : Ctx) (u : String) (st : RunState) :
    mClearPreview ctx u st =
      (RunState.mk (clearPreview ctx.renv u st.store) st.sent st.attempts
        st.aiCalls (st.log ++ [StoreOp.wClearPreview u]), Except.ok ()) := rfl

theorem mGetMode_run (ctx : Ctx) (u : String) (st : RunState) :
    mGetMode ctx u st =
      (RunState.mk (getMode ctx.renv ctx.now u st.store).2 st.sent st.attempts
        st.aiCalls st.log, Except.ok (getMode ctx.renv ctx.now u st.store).1) := rfl

theorem mGetContext_run (ctx : Ctx) (u : String) (st : RunState) :
    mGetContext ctx u st =
      (RunState.mk (getContext ctx.renv ctx.now u st.store).2 st.sent st.attempts
        st.aiCalls st.log, Except.ok (getContext ctx.renv ctx.now u st.store).1) := rfl

theorem mSaveContext_run (ctx : Ctx) (u : String) (l : List Turn) (st : RunState) :
    mSaveContext ctx u l st =
      (RunState.mk (saveContext ctx.renv ctx.now u l st.store) st.sent st.attempts
        st.aiCalls (st.log ++ [StoreOp.wSaveContext u]), Except.ok ()) := rfl

theorem mSetMode_run (ctx : Ctx) (u m : String) (st : RunState) :
    mSetMode ctx u m st =
      (RunState.mk (setMode ctx.renv ctx.now u m st.store) st.sent st.attempts
        st.aiCalls (st.log ++ [StoreOp.wSetMode u m]), Except.ok ()) := rfl

theorem mOpenTicket_run (ctx : Ctx) (u : String) (st : RunState) :
    mOpenTicket ctx u st =
      (RunState.mk (openTicket ctx.renv ctx.now u st.store) st.sent st.attempts
        st.aiCalls (st.log ++ [StoreOp.wOpenTicket u]), Except.ok ()) := rfl

theorem mCloseTicket_run (ctx : Ctx) (u : String) (st : RunState) :
    mCloseTicket ctx u st =
      (RunState.mk (closeTicket ctx.renv ctx.now u st.store) st.sent st.attempts
        st.aiCalls (st.log ++ [StoreOp.wDelTicket u, StoreOp.wSetMode u "AI"]),
        Except.ok ()) := rfl

theorem mListTickets_run (ctx : Ctx) (st : RunState) :
    mListTickets ctx st =
      (st, Except.ok (listTickets ctx.renv ctx.now st.store)) := rfl

theorem sendBranch_mode (ctx : Ctx) (u sender toU : String) (st : RunState) :
    getModeV ctx.renv ctx.now u ((sendBranch ctx sender toU st).1.store) =
      getModeV ctx.renv ctx.now u st.store := by
  unfold sendBranch
  by_cases h0 : toU = ""
  · rw [if_pos h0]
    rfl
  · rw [if_neg h0]
    have hbody : ∀ st1 : RunState, getModeV ctx.renv ctx.now u
        (((if ((getPreview ctx.renv ctx.now toU st.store).1).getD "" = "" then
            mSend ctx sender noPreviewText
          else
            (mSend ctx toU (((getPreview ctx.renv ctx.now toU st.store).1).getD "") >>=
              fun _ => mClearPreview ctx toU >>= fun _ =>
                mSend ctx sender sentConfirmText)) st1).1.store) =
        getModeV ctx.renv ctx.now u st1.store := by
      intro st1
      by_cases hpv : ((getPreview ctx.renv ctx.now toU st.store).1).getD "" = ""
      · rw [if_pos hpv, mSend_store]
      · rw [if_neg hpv]
        exact mode_bind_mSend ctx u toU _ _ st1 (by
          intro st'
          rw [bind_run, mClearPreview_run, mSend_store]
          exact getModeV_clearPreview ctx.renv ctx.now u toU st'.store)
    exact (hbody (RunState.mk (getPreview ctx.renv ctx.now toU st.store).2 st.sent
      st.attempts st.aiCalls st.log)).trans
      (getModeV_getPreview_post ctx.renv ctx.now u toU st.store)

theorem closeBranch_mode (ctx : Ctx) (u sender toU : String) (st : RunState) :
    getModeV ctx.renv ctx.now u ((closeBranch ctx sender toU st).1.store) =
      if toU ≠ "" ∧ u = toU then "AI" else getModeV ctx.renv ctx.now u st.store := by
  unfold closeBranch
  by_cases h0 : toU = ""
  · rw [if_pos h0, if_neg (by simp [h0])]
    rfl
  · rw [if_neg h0]
    have hrest : ∀ st1 : RunState, getModeV ctx.renv ctx.now u
        (((mSend ctx toU closeUserText >>= fun _ =>
            mSend ctx sender ("Atendimento encerrado para " ++ toU ++ ".")) st1).1.store) =
        getModeV ctx.renv ctx.now u st1.store := by
      intro st1
      exact mode_bind_mSend ctx u toU _ _ st1 (by
        intro st'
        rw [mSend_store])
    refine (hrest (RunState.mk (closeTicket ctx.renv ctx.now toU st.store) st.sent
      st.attempts st.aiCalls
      (st.log ++ [StoreOp.wDelTicket toU, StoreOp.wSetMode toU "AI"]))).trans ?_
    by_cases hu : u = toU
    · rw [if_pos (And.intro h0 hu), hu]
      exact getModeV_closeTicket_self ctx.renv ctx.now toU st.store
    · rw [if_neg (fun hc => hu hc.2)]
      exact getModeV_closeTicket_other ctx.renv ctx.now hu st.store

theorem listBranch_mode (ctx : Ctx) (u sender : String) (st : RunState) :
    getModeV ctx.renv ctx.now u ((listBranch ctx sender st).1.store) =
      getModeV ctx.renv ctx.now u st.store := by
  unfold listBranch
  exact mSend_mode ctx u sender _ st

theorem humanModeBranch_mode (ctx : Ctx) (u sender text : String) (st : RunState) :
    getModeV ctx.renv ctx.now u ((humanModeBranch ctx sender text st).1.store) =
      getModeV ctx.renv ctx.now u st.store := by
  unfold humanModeBranch
  have htail : ∀ st' : RunState, getModeV ctx.renv ctx.now u
      (((if optTruthy ctx.cfg.techId = true then
          mSend ctx (ctx.cfg.techId.getD "") (humanForwardText sender text)
        else pure ()) st').1.store) = getModeV ctx.renv ctx.now u st'.store := by
    intro st'
    by_cases ht : optTruthy ctx.cfg.techId = true
    · rw [if_pos ht, mSend_store]
    · rw [if_neg ht]
      rfl
  by_cases ho : optTruthy ctx.cfg.ownerId = true
  · rw [if_pos ho]
    rw [bind_run]
    by_cases hs : ctx.sendOk st.attempts = true
    · rw [mSend_run_ok hs]
      exact htail _
    · rw [mSend_run_fail (by simpa using hs)]
  · rw [if_neg ho]
    rw [bind_run, pure_run]
    exact htail _

theorem aiBranch_mode (ctx : Ctx) (u sender text : String) (st : RunState) :
    getModeV ctx.renv ctx.now u ((aiBranch ctx sender text st).1.store) =
      getModeV ctx.renv ctx.now u st.store := by
  unfold aiBranch
  rw [bind_run, mGetContext_run]
  dsimp only
  cases hai : ctx.aiOutcome with
  | error e =>
    simp only [bind_run, mGerarResposta]
    exact getModeV_getContext_post ctx.renv ctx.now u sender st.store
  | ok c =>
    simp only [bind_run, mGerarResposta]
    have h2 := mode_bind_mSend ctx u sender (c.getD "")
      (fun _ => mSaveContext ctx sender
        ((getContext ctx.renv ctx.now sender st.store).1 ++
          [Turn.mk "user" text, Turn.mk "assistant" (c.getD "")]))
      (RunState.mk (getContext ctx.renv ctx.now sender st.store).2 st.sent st.attempts
        (st.aiCalls + 1) st.log)
      (by
        intro st'
        exact getModeV_saveContext ctx.renv ctx.now u sender _ st'.store)
    exact h2.trans (getModeV_getContext_post ctx.renv ctx.now u sender st.store)

theorem handoverBranch_mode (ctx : Ctx) (u sender text : String) (st : RunState) :
    getModeV ctx.renv ctx.now u ((handoverBranch ctx sender text st).1.store) =
      if u = sender then "HUMAN" else getModeV ctx.renv ctx.now u st.store := by
  have hjp : ∀ st4 : RunState, getModeV ctx.renv ctx.now u
      (((if optTruthy ctx.cfg.techId = true then
          mSend ctx (ctx.cfg.techId.getD "") (techHandoverNotice sender text)
        else pure ()) st4).1.store) = getModeV ctx.renv ctx.now u st4.store := by
    intro st4
    by_cases ht : optTruthy ctx.cfg.techId = true
    · rw [if_pos ht, mSend_store]
    · rw [if_neg ht]
      rfl
  have htail : ∀ st3 : RunState, getModeV ctx.renv ctx.now u
      (((if optTruthy ctx.cfg.ownerId = true then
          (mSend ctx (ctx.cfg.ownerId.getD "") (ownerHandoverNotice sender text) >>=
            fun _ => (if optTruthy ctx.cfg.techId = true then
              mSend ctx (ctx.cfg.techId.getD "") (techHandoverNotice sender text)
            else pure ()))
        else (pure () >>= fun _ => (if optTruthy ctx.cfg.techId = true then
              mSend ctx (ctx.cfg.techId.getD "") (techHandoverNotice sender text)
            else pure ()))) st3).1.store) = getModeV ctx.renv ctx.now u st3.store := by
    intro st3
    by_cases ho : optTruthy ctx.cfg.ownerId = true
    · rw [if_pos ho]
      exact mode_bind_mSend ctx u _ _ _ st3 (fun st' => hjp st')
    · rw [if_neg ho, bind_run, pure_run]
      exact hjp st3
  have hSends : ∀ st2 : RunState, getModeV ctx.renv ctx.now u
      (((mSend ctx sender ctx.cfg.handoverText >>= fun _ =>
          (if optTruthy ctx.cfg.ownerId = true then
            (mSend ctx (ctx.cfg.ownerId.getD "") (ownerHandoverNotice sender text) >>=
              fun _ => (if optTruthy ctx.cfg.techId = true then
                mSend ctx (ctx.cfg.techId.getD "") (techHandoverNotice sender text)
              else pure ()))
          else (pure () >>= fun _ => (if optTruthy ctx.cfg.techId = true then
                mSend ctx (ctx.cfg.techId.getD "") (techHandoverNotice sender text)
              else pure ())))) st2).1.store) = getModeV ctx.renv ctx.now u st2.store := by
    intro st2
    exact mode_bind_mSend ctx u _ _ _ st2 (fun st' => htail st')
  have hAfterSet : ∀ st1 : RunState, getModeV ctx.renv ctx.now u
      (((mOpenTicket ctx sender >>= fun _ =>
          (mSend ctx sender ctx.cfg.handoverText >>= fun _ =>
          (if optTruthy ctx.cfg.ownerId = true then
            (mSend ctx (ctx.cfg.ownerId.getD "") (ownerHandoverNotice sender text) >>=
              fun _ => (if optTruthy ctx.cfg.techId = true then
                mSend ctx (ctx.cfg.techId.getD "") (techHandoverNotice sender text)
              else pure ()))
          else (pure () >>= fun _ => (if optTruthy ctx.cfg.techId = true then
                mSend ctx (ctx.cfg.techId.getD "") (techHandoverNotice sender text)
              else pure ()))))) st1).1.store) = getModeV ctx.renv ctx.now u st1.store := by
    intro st1
    rw [bind_run, mOpenTicket_run]
    exact (hSends (RunState.mk (openTicket ctx.renv ctx.now sender st1.store) st1.sent
      st1.attempts st1.aiCalls (st1.log ++ [StoreOp.wOpenTicket sender]))).trans
      (getModeV_openTicket ctx.renv ctx.now u sender st1.store)
  unfold handoverBranch
  rw [bind_run, mSetMode_run]
  refine (hAfterSet (RunState.mk (setMode ctx.renv ctx.now sender "HUMAN" st.store) st.sent
    st.attempts st.aiCalls (st.log ++ [StoreOp.wSetMode sender "HUMAN"]))).trans ?_
  by_cases hu : u = sender
  · rw [if_pos hu, hu]
    exact getModeV_setMode_self ctx.renv ctx.now sender "HUMAN" (by decide) st.store
  · rw [if_neg hu]
    exact getModeV_setMode_other ctx.renv ctx.now hu "HUMAN" st.store

theorem webhookHandler_mode (ctx : Ctx) (sender text0 u : String) (st : RunState) :
    getModeV ctx.renv ctx.now u ((webhookHandler ctx sender text0 st).1.store) =
      (if (ctx.cfg.ownerId == Option.some sender ||
            ctx.cfg.techId == Option.some sender) = true then
        (match parseCommand (jsTrim text0) with
          | Command.close toU =>
            if toU ≠ "" ∧ u = toU then "AI" else getModeV ctx.renv ctx.now u st.store
          | _ => getModeV ctx.renv ctx.now u st.store)
      else if wantsTechnician (jsTrim text0) = true then
        (if u = sender then "HUMAN" else getModeV ctx.renv ctx.now u st.store)
      else getModeV ctx.renv ctx.now u st.store) := by
  unfold webhookHandler
  by_cases hAgent : (ctx.cfg.ownerId == Option.some sender ||
      ctx.cfg.techId == Option.some sender) = true
  · rw [if_pos hAgent, if_pos hAgent]
    cases hc : parseCommand (jsTrim text0) with
    | reply toU msg => exact replyBranch_mode ctx u sender toU msg true st
    | reply_raw toU msg => exact replyBranch_mode ctx u sender toU msg false st
    | send toU => exact sendBranch_mode ctx u sender toU st
    | close toU => exact closeBranch_mode ctx u sender toU st
    | list => exact listBranch_mode ctx u sender st
    | none => exact mSend_mode ctx u sender helpText st
  · rw [if_neg hAgent, if_neg hAgent]
    by_cases hw : wantsTechnician (jsTrim text0) = true
    · rw [if_pos hw, if_pos hw]
      exact handoverBranch_mode ctx u sender (jsTrim text0) st
    · rw [if_neg hw, if_neg hw]
      have hbody : ∀ st1 : RunState, getModeV ctx.renv ctx.now u
          (((if (getMode ctx.renv ctx.now sender st.store).1 = "HUMAN" then
              humanModeBranch ctx sender (jsTrim text0)
            else aiBranch ctx sender (jsTrim text0)) st1).1.store) =
          getModeV ctx.renv ctx.now u st1.store := by
        intro st1
        by_cases hm : (getMode ctx.renv ctx.now sender st.store).1 = "HUMAN"
        · rw [if_pos hm]
          exact humanModeBranch_mode ctx u sender (jsTrim text0) st1
        · rw [if_neg hm]
          exact aiBranch_mode ctx u sender (jsTrim text0) st1
      rw [bind_run, mGetMode_run]
      exact (hbody (RunState.mk (getMode ctx.renv ctx.now sender st.store).2 st.sent
        st.attempts st.aiCalls st.log)).trans
        (getModeV_getMode_post ctx.renv ctx.now u sender st.store)

/-! ## String and parser lemmas -/

theorem string_ne_empty_of_data {s : String} (h : s.data ≠ []) : s ≠ "" := by
  intro he
  exact h (by rw [he])

theorem jsSliceTo_length (n : Nat) (s : String) :
    (jsSliceTo n s).length = min n s.length := by
  unfold jsSliceTo
  show (s.data.take n).length = min n s.data.length
  exact List.length_take n s.data

theorem polishFallback_ne_empty (o : Except Unit (Option String)) (orig fb : String)
    (ho : orig ≠ "") (hf : fb ≠ "") : polishFallback o orig fb ≠ "" := by
  cases o with
  | error e => simpa only [polishFallback] using hf
  | ok c =>
    simp only [polishFallback]
    by_cases h : c.getD "" = "" ∨ (jsTrim (c.getD "")).length < 3
    · rw [if_pos h]
      exact ho
    · rw [if_neg h]
      apply string_ne_empty_of_data
      have h3 : ¬ (jsTrim (c.getD "")).length < 3 := fun hh => h (Or.inr hh)
      have hlen : (jsSliceTo 1500 (jsTrim (c.getD ""))).length ≥ 1 := by
        rw [jsSliceTo_length]
        omega
      intro hnil
      have : (jsSliceTo 1500 (jsTrim (c.getD ""))).length = 0 := by
        show (jsSliceTo 1500 (jsTrim (c.getD ""))).data.length = 0
        rw [hnil]
        rfl
      omega

theorem jsStartsWith_iff (s p : String) :
    jsStartsWith s p = true ↔ p.data <+: s.data := by
  unfold jsStartsWith
  exact List.isPrefixOf_iff_prefix

theorem jsTrim_data (s : String) :
    (jsTrim s).data = ((s.data.dropWhile isJsSpace).reverse.dropWhile isJsSpace).reverse :=
  rfl

theorem jsTrim_keeps_respraw {s : String} (h : jsStartsWith s "/respraw " = true) :
    jsStartsWith (jsTrim s) "/respraw" = true := by
  rw [jsStartsWith_iff] at h ⊢
  obtain ⟨r, hr⟩ := h
  rw [jsTrim_data, ← hr]
  have hdrop : ("/respraw ".data ++ r).dropWhile isJsSpace = "/respraw ".data ++ r := by
    show (('/' :: "respraw ".data) ++ r).dropWhile isJsSpace = _
    rw [List.cons_append, List.dropWhile_cons]
    simp [isJsSpace]
  rw [hdrop, List.reverse_append]
  rw [List.dropWhile_append]
  by_cases hre : (r.reverse.dropWhile isJsSpace).isEmpty = true
  · rw [if_pos hre]
    have : ("/respraw ".data.reverse.dropWhile isJsSpace).reverse = "/respraw".data := by
      decide
    rw [this]
  · rw [if_neg hre, List.reverse_append]
    have h1 : "/respraw".data <+: "/respraw ".data.reverse.reverse := by
      rw [List.reverse_reverse]
      decide
    exact h1.trans (List.prefix_append _ _)

theorem parseCommand_reply_not_respraw {s toU m : String}
    (h : parseCommand s = Command.reply toU m) :
    jsStartsWith (jsTrim s) "/respraw" = false := by
  unfold parseCommand at h
  by_cases h1 : jsStartsWith (jsTrim s) "/respraw " = true
  · rw [if_pos h1] at h
    exact absurd h (by simp)
  · rw [if_neg h1] at h
    by_cases h2 : jsStartsWith (jsTrim s) "/resp " = true
    · rw [if_pos h2] at h
      by_cases hra : jsStartsWith (jsTrim s) "/respraw" = true
      · rw [jsStartsWith_iff] at h2 hra
        rcases List.prefix_or_prefix_of_prefix h2 hra with hc | hc
        · exact absurd hc (by decide)
        · exact absurd hc (by decide)
      · exact eq_false_of_ne_true hra
    · rw [if_neg h2] at h
      by_cases h3 : jsStartsWith (jsTrim s) "/enviar " = true
      · rw [if_pos h3] at h
        exact absurd h (by simp)
      · rw [if_neg h3] at h
        by_cases h4 : jsStartsWith (jsTrim s) "/fechar " = true
        · rw [if_pos h4] at h
          exact absurd h (by simp)
        · rw [if_neg h4] at h
          by_cases h5 : jsTrim s = "/abertos"
          · rw [if_pos h5] at h
            exact absurd h (by simp)
          · rw [if_neg h5] at h
            exact absurd h (by simp)

theorem respraw_never_reply {s toU m : String}
    (hs : jsStartsWith s "/respraw " = true) :
    parseCommand s ≠ Command.reply toU m := by
  intro h
  have h1 := parseCommand_reply_not_respraw h
  rw [jsTrim_keeps_respraw hs] at h1
  exact absurd h1 (by decide)

/-! ## Claim theorems -/

/-- C7: parseCommand matches the most specific prefix first: an input
starting with "/respraw " is never parsed as a reply command;
"/respraw 5511999 oi" parses to reply_raw with recipient "5511999" and body
"oi"; "/resp 5511999 oi tudo bem" parses to reply with recipient "5511999"
and the remaining tokens rejoined by single spaces as the body; and any
input matching none of the five directives parses to none. -/
theorem c7_parse_command_specificity :
    (∀ s toU m : String, jsStartsWith s "/respraw " = true →
      parseCommand s ≠ Command.reply toU m) ∧
    parseCommand "/respraw 5511999 oi" = Command.reply_raw "5511999" "oi" ∧
    parseCommand "/resp 5511999 oi tudo bem" = Command.reply "5511999" "oi tudo bem" ∧
    (∀ s : String, jsStartsWith (jsTrim s) "/respraw " = false →
      jsStartsWith (jsTrim s) "/resp " = false →
      jsStartsWith (jsTrim s) "/enviar " = false →
      jsStartsWith (jsTrim s) "/fechar " = false →
      jsTrim s ≠ "/abertos" →
      parseCommand s = Command.none) :=
  ⟨fun _ _ _ hs => respraw_never_reply hs, by decide, by decide, by
    intro s h1 h2 h3 h4 h5
    unfold parseCommand
    rw [if_neg (by simp [h1]), if_neg (by simp [h2]), if_neg (by simp [h3]),
      if_neg (by simp [h4]), if_neg h5]⟩

/-- C10: on a successful completion, polishAgentText returns the original
input exactly when the completion content is absent, empty, or shorter than
3 characters after trimming, and otherwise the completion trimmed and
truncated to at most 1500 characters; its only state effect is the
completion-call counter. -/
theorem c10_polish_truncation :
    ∀ (c : Option String) (orig : String) (st : RunState),
      (polishAgentText (Except.ok c) orig st).2 =
        Except.ok (if c.getD "" = "" ∨ (jsTrim (c.getD "")).length < 3 then orig
          else jsSliceTo 1500 (jsTrim (c.getD ""))) ∧
      (polishAgentText (Except.ok c) orig st).1 = bumpAi st ∧
      (jsSliceTo 1500 (jsTrim (c.getD ""))).length ≤ 1500 := by
  intro c orig st
  refine ⟨?_, ?_, ?_⟩
  · rw [polishAgentText_run]
  · rw [polishAgentText_run]
  · rw [jsSliceTo_length]
    omega

/-- C4 (code-bug exhibit): with the backend configured but unreachable,
openTicket falls back to the in-process map (and mode set/get round-trips
via the fallback), yet listTickets consults only the backend key scan and
returns the empty list, so the open ticket does not round-trip; the same
sequence with the backend unconfigured does round-trip. -/
theorem c4_listTickets_fallback_gap :
    listTickets (RedisEnv.mk true false) 0
        (openTicket (RedisEnv.mk true false) 0 "5511999" (Store.mk [] [])) = [] ∧
    (memGet 0 ("ticket:" ++ "5511999")
        (openTicket (RedisEnv.mk true false) 0 "5511999" (Store.mk [] [])).mem).1 =
      Option.some (Value.str "OPEN") ∧
    getModeV (RedisEnv.mk true false) 0 "5511999"
        (setMode (RedisEnv.mk true false) 0 "5511999" "HUMAN" (Store.mk [] [])) =
      "HUMAN" ∧
    listTickets (RedisEnv.mk false false) 0
        (openTicket (RedisEnv.mk false false) 0 "5511999" (Store.mk [] [])) =
      ["5511999"] :=
  ⟨by decide, by decide, by decide, by decide⟩

/-- C1 (counterexample): with every outbound delivery failing, a handover
message makes the inbound-event handler end in a rejection — the
sendTextMessage boundary is not wrapped in any try/catch inside the
handler, so its failure propagates out. -/
theorem c1_counterexample_send_failure_escapes :
    (webhookHandler
      (Ctx.mk (Config.mk Option.none Option.none false false "auto")
        (RedisEnv.mk false false) 0 (fun _ => false)
        (Except.ok Option.none) (Except.ok Option.none))
      "5511" "humano" initialState).2 = Except.error () := by rfl

/-- C1 (amended): failures of the durable store and of the text-polishing
call never escape the handler — whenever every outbound delivery succeeds
and the direct completion call does not throw, the handler completes
without rejection for every configuration, backend regime, store state and
polish outcome; only sendTextMessage and gerarResposta failures can escape. -/
theorem c1_amended_handler_never_rejects :
    ∀ (ctx : Ctx) (sender text0 : String) (st : RunState) (c : Option String),
      (∀ i, ctx.sendOk i = true) → ctx.aiOutcome = Except.ok c →
      (webhookHandler ctx sender text0 st).2 = Except.ok () :=
  fun ctx sender text0 st _ hs hai => webhookHandler_ok ctx sender text0 st hs hai

/-- C1 amended witness: a concrete run with sends succeeding, the AI call
succeeding, the backend configured but down, and the polish call throwing
still completes without rejection. -/
theorem c1_amended_witness :
    (webhookHandler
      (Ctx.mk (Config.mk Option.none Option.none true false "auto")
        (RedisEnv.mk true false) 3 (fun _ => true)
        (Except.ok (Option.some "olá")) (Except.error ()))
      "5511" "bom dia" initialState).2 = Except.ok () :=
  c1_amended_handler_never_rejects
    (Ctx.mk (Config.mk Option.none Option.none true false "auto")
      (RedisEnv.mk true false) 3 (fun _ => true)
      (Except.ok (Option.some "olá")) (Except.error ()))
    "5511" "bom dia" initialState (Option.some "olá") (fun _ => rfl) rfl

/-- C3: for every user and turn list, the context persisted by saveContext
and read back within the retention window equals the last 10 turns of the
input in order, and never exceeds 10 turns, in every backend regime. -/
theorem c3_context_capped (env : RedisEnv) (u : String) (ctx : List Turn) (s : Store)
    (now now' : Nat) (h2 : now' < now + TTL) :
    getCtxV env now' u (saveContext env now u ctx s) = ctx.drop (ctx.length - 10) ∧
    (getCtxV env now' u (saveContext env now u ctx s)).length ≤ 10 := by
  have hmain : getCtxV env now' u (saveContext env now u ctx s) =
      ctx.drop (ctx.length - 10) := by
    rw [getCtxV_eq]
    unfold saveContext
    rw [readVal_storeSet_self]
    have hexp : ¬ (now + TTL ≤ now') := by omega
    by_cases hc : env.conf && env.up <;>
      simp [hc, hexp, ctxOf, truthy, valToCtxOpt]
  refine ⟨hmain, ?_⟩
  rw [hmain, List.length_drop]
  omega

/-- C3 witness: saving 15 concrete turns then loading yields exactly the
last 10 in order. -/
theorem c3_context_capped_witness :
    (5 : Nat) < 0 + TTL ∧
    (getCtxV (RedisEnv.mk true true) 5 "u15"
        (saveContext (RedisEnv.mk true true) 0 "u15"
          ((List.range 15).map (fun i => Turn.mk "user" (toString i)))
          (Store.mk [] [])) =
      ((List.range 15).map (fun i => Turn.mk "user" (toString i))).drop
        (((List.range 15).map (fun i => Turn.mk "user" (toString i))).length - 10) ∧
    (getCtxV (RedisEnv.mk true true) 5 "u15"
        (saveContext (RedisEnv.mk true true) 0 "u15"
          ((List.range 15).map (fun i => Turn.mk "user" (toString i)))
          (Store.mk [] []))).length ≤ 10) :=
  ⟨by decide, c3_context_capped (RedisEnv.mk true true) "u15"
    ((List.range 15).map (fun i => Turn.mk "user" (toString i)))
    (Store.mk [] []) 0 5 (by decide)⟩

/-- C5: in every reachable situation, one inbound event changes a user's
observed mode exactly as the two-transition state machine prescribes: to
HUMAN when a non-operator message from that user matches the handover
detector, to AI when an operator issues a well-formed /fechar for that
user, and it is left unchanged by every other event, whatever the oracle
outcomes of the external calls. -/
theorem c5_mode_transitions :
    ∀ (ctx : Ctx) (sender text0 u : String) (st : RunState),
      getModeV ctx.renv ctx.now u ((webhookHandler ctx sender text0 st).1.store) =
        (if (ctx.cfg.ownerId == Option.some sender ||
              ctx.cfg.techId == Option.some sender) = true then
          (match parseCommand (jsTrim text0) with
            | Command.close toU =>
              if toU ≠ "" ∧ u = toU then "AI" else getModeV ctx.renv ctx.now u st.store
            | _ => getModeV ctx.renv ctx.now u st.store)
        else if wantsTechnician (jsTrim text0) = true then
          (if u = sender then "HUMAN" else getModeV ctx.renv ctx.now u st.store)
        else getModeV ctx.renv ctx.now u st.store) :=
  fun ctx sender text0 u st => webhookHandler_mode ctx sender text0 u st

/-! ## Map algebra lemmas for close idempotence -/

theorem store_ext {a b : Store} (h1 : a.redis = b.redis) (h2 : a.mem = b.mem) :
    a = b := by
  cases a
  cases b
  cases h1
  cases h2
  rfl

theorem memDel_memDel (k : String) (m : Mem) :
    memDel k (memDel k m) = memDel k m := by
  unfold memDel
  rw [List.filter_filter]
  simp

theorem findEntry_eq_none_forall {k : String} {m : Mem}
    (h : findEntry k m = Option.none) : ∀ e ∈ m, ¬ e.key = k := by
  intro e hem
  have := List.find?_eq_none.mp h e hem
  simpa using this

theorem map_eq_self_of_fix {f : Entry → Entry} {m : Mem} (h : ∀ e ∈ m, f e = e) :
    m.map f = m := by
  induction m with
  | nil => rfl
  | cons e rest ih =>
    rw [List.map_cons, h e (List.mem_cons_self e rest),
      ih (fun e' he' => h e' (List.mem_cons_of_mem e he'))]

theorem memSet_memSet (now ttl : Nat) (k : String) (v : Value) (m : Mem) :
    memSet now ttl k v (memSet now ttl k v m) = memSet now ttl k v m := by
  have h2 : (findEntry k (memSet now ttl k v m)).isSome := by
    rw [findEntry_memSet_self]
    rfl
  by_cases hs : (findEntry k m).isSome
  · have h1 : memSet now ttl k v m =
        m.map (fun e => if e.key = k then Entry.mk k v (now + ttl) else e) := by
      unfold memSet
      rw [if_pos hs]
    conv_lhs => rw [memSet, if_pos h2]
    rw [h1, List.map_map]
    apply List.map_congr_left
    intro e _
    by_cases hk : e.key = k
    · simp [Function.comp, hk]
    · simp [Function.comp, hk]
  · have hnone : findEntry k m = Option.none := by
      cases hf : findEntry k m
      · rfl
      · exact absurd (by simp [hf]) hs
    have h1 : memSet now ttl k v m = m ++ [Entry.mk k v (now + ttl)] := by
      unfold memSet
      rw [if_neg hs]
    conv_lhs => rw [memSet, if_pos h2]
    rw [h1, List.map_append]
    have h3 : m.map (fun e => if e.key = k then Entry.mk k v (now + ttl) else e) = m :=
      map_eq_self_of_fix (fun e hem => if_neg (findEntry_eq_none_forall hnone e hem))
    rw [h3]
    have h4 : [Entry.mk k v (now + ttl)].map
        (fun e => if e.key = k then Entry.mk k v (now + ttl) else e) =
        [Entry.mk k v (now + ttl)] := by
      simp
    rw [h4]

theorem memDel_memSet_comm {k k' : String} (h : k ≠ k') (now ttl : Nat) (v : Value)
    (m : Mem) :
    memDel k (memSet now ttl k' v m) = memSet now ttl k' v (memDel k m) := by
  have hkeyfix : ∀ e : Entry,
      ((if e.key = k' then Entry.mk k' v (now + ttl) else e)).key = e.key := by
    intro e
    by_cases hk : e.key = k'
    · rw [if_pos hk, hk]
    · rw [if_neg hk]
  by_cases hs : (findEntry k' m).isSome
  · have hs2 : (findEntry k' (memDel k m)).isSome := by
      rw [findEntry_memDel_ne (fun hh => h hh.symm)]
      exact hs
    unfold memSet
    rw [if_pos hs, if_pos hs2]
    unfold memDel
    rw [List.filter_map]
    have hfc : List.filter
        ((fun e' => decide (¬ e'.key = k)) ∘
          (fun e => if e.key = k' then Entry.mk k' v (now + ttl) else e)) m =
        List.filter (fun e' => decide (¬ e'.key = k)) m := by
      apply List.filter_congr
      intro e _
      simp [Function.comp, hkeyfix e]
    rw [hfc]
  · have hs2 : ¬ (findEntry k' (memDel k m)).isSome := by
      rw [findEntry_memDel_ne (fun hh => h hh.symm)]
      exact hs
    unfold memSet
    rw [if_neg hs, if_neg hs2]
    unfold memDel
    rw [List.filter_append]
    have hkk : k' ≠ k := Ne.symm h
    have hone : List.filter (fun e' => decide (¬ e'.key = k)) [Entry.mk k' v (now + ttl)] =
        [Entry.mk k' v (now + ttl)] := by
      simp [hkk]
    rw [hone]

theorem closeTicket_idem (env : RedisEnv) (now : Nat) (u : String) (s : Store) :
    closeTicket env now u (closeTicket env now u s) = closeTicket env now u s := by
  have hne : ("ticket:" ++ u : String) ≠ "mode:" ++ u := ticketKey_ne_modeKey u u
  apply store_ext
  · unfold closeTicket setMode
    simp only [storeSet_redis, storeDel_redis]
    by_cases hc : env.conf && env.up
    · simp only [hc, if_true]
      rw [memDel_memSet_comm hne, memDel_memDel, memSet_memSet]
    · simp only [hc, Bool.false_eq_true, if_false]
  · unfold closeTicket setMode
    simp only [storeSet_mem, storeDel_mem]
    by_cases hc : env.conf && env.up
    · simp only [hc, if_true]
    · simp only [hc, Bool.false_eq_true, if_false]
      rw [memDel_memSet_comm hne, memDel_memDel, memSet_memSet]

theorem mem_memSet_cases {e' : Entry} {now ttl : Nat} {k : String} {v : Value} {m : Mem}
    (h : e' ∈ memSet now ttl k v m) : e' = Entry.mk k v (now + ttl) ∨ e' ∈ m := by
  unfold memSet at h
  by_cases hs : (findEntry k m).isSome
  · rw [if_pos hs] at h
    obtain ⟨e, hem, hfe⟩ := List.mem_map.mp h
    by_cases hk : e.key = k
    · left
      rw [← hfe, if_pos hk]
    · right
      rw [← hfe, if_neg hk]
      exact hem
  · rw [if_neg hs] at h
    rcases List.mem_append.mp h with h1 | h1
    · right
      exact h1
    · left
      simpa using h1

theorem mem_memDel {e' : Entry} {k : String} {m : Mem} (h : e' ∈ memDel k m) :
    e' ∈ m ∧ ¬ e'.key = k := by
  unfold memDel at h
  have := List.mem_filter.mp h
  exact ⟨this.1, by simpa using this.2⟩

theorem stripFirst_prefix_self (w : String) :
    stripFirst "ticket:" ("ticket:" ++ w) = w := by
  apply string_data_ext
  show stripFirstAux "ticket:".data ("ticket:" ++ w).data = w.data
  rw [String.data_append]
  have hsplit : "ticket:".data ++ w.data = 't' :: ("icket:".data ++ w.data) := rfl
  rw [hsplit]
  show (if "ticket:".data.isPrefixOf ('t' :: ("icket:".data ++ w.data)) then
      ('t' :: ("icket:".data ++ w.data)).drop "ticket:".data.length
    else 't' :: stripFirstAux "ticket:".data ("icket:".data ++ w.data)) = w.data
  rw [if_pos (by
    rw [ List.isPrefixOf_iff_prefix, ← hsplit]
    exact List.prefix_append _ _)]
  rw [← hsplit]
  exact List.drop_left _ _

theorem key_eq_of_ticket_prefix_strip {key u : String}
    (hpre : jsStartsWith key "ticket:" = true)
    (hstrip : stripFirst "ticket:" key = u) : key = "ticket:" ++ u := by
  rw [jsStartsWith_iff] at hpre
  obtain ⟨t, ht⟩ := hpre
  have hkey : key = "ticket:" ++ (⟨t⟩ : String) := by
    apply string_data_ext
    rw [String.data_append, ht]
  rw [hkey, stripFirst_prefix_self] at hstrip
  rw [hkey, hstrip]

theorem not_mem_listTickets_close (env : RedisEnv) (now : Nat) (u : String) (s : Store) :
    u ∉ listTickets env now (closeTicket env now u s) := by
  intro hmem
  unfold listTickets at hmem
  have hne : ("ticket:" ++ u : String) ≠ "mode:" ++ u := ticketKey_ne_modeKey u u
  by_cases hconf : env.conf = true
  · rw [if_pos hconf] at hmem
    unfold safeRedisKeys at hmem
    by_cases hup : env.up = true
    · rw [if_neg (by simp [hconf]), if_neg (by simp [hup])] at hmem
      obtain ⟨key, hkey, hstrip⟩ := List.mem_map.mp hmem
      unfold redisKeysPref at hkey
      obtain ⟨e, he, hek⟩ := List.mem_map.mp hkey
      have he2 := List.mem_filter.mp he
      have hpre : jsStartsWith e.key "ticket:" = true := by
        have := he2.2
        simp only [Bool.and_eq_true] at this
        exact this.1
      have hkeyeq : e.key = "ticket:" ++ u :=
        key_eq_of_ticket_prefix_strip hpre (by rw [hek]; exact hstrip)
      have hein : e ∈ (closeTicket env now u s).redis := he2.1
      unfold closeTicket setMode at hein
      rw [storeSet_redis, storeDel_redis] at hein
      rw [if_pos (by simp [hconf, hup]), if_pos (by simp [hconf, hup])] at hein
      rcases mem_memSet_cases hein with h1 | h1
      · rw [h1] at hkeyeq
        exact hne (by simpa using hkeyeq.symm)
      · exact (mem_memDel h1).2 hkeyeq
    · rw [if_neg (by simp [hconf]), if_pos (by simp [hup])] at hmem
      simp at hmem
  · rw [if_neg hconf] at hmem
    obtain ⟨key, hkey, hstrip⟩ := List.mem_map.mp hmem
    unfold memKeys at hkey
    obtain ⟨e, he, hek⟩ := List.mem_map.mp hkey
    have he2 := List.mem_filter.mp he
    have hpre : jsStartsWith e.key "ticket:" = true := he2.2
    have hkeyeq : e.key = "ticket:" ++ u :=
      key_eq_of_ticket_prefix_strip hpre (by rw [hek]; exact hstrip)
    have hein : e ∈ (closeTicket env now u s).mem := he2.1
    unfold closeTicket setMode at hein
    rw [storeSet_mem, storeDel_mem] at hein
    rw [if_neg (by simp [hconf]), if_neg (by simp [hconf])] at hein
    rcases mem_memSet_cases hein with h1 | h1
    · rw [h1] at hkeyeq
      exact hne (by simpa using hkeyeq.symm)
    · exact (mem_memDel h1).2 hkeyeq

/-- C8: closing a ticket is idempotent and complete: after closeTicket the
user's observed mode is AI and the user no longer appears in the open
ticket listing, and running closeTicket twice back to back yields exactly
the same store as running it once — in every backend regime, the ticket
delete and the mode reset both being performed on whichever tier accepts
them. -/
theorem c8_close_idempotent_mode_reset :
    ∀ (env : RedisEnv) (now : Nat) (u : String) (s : Store),
      closeTicket env now u (closeTicket env now u s) = closeTicket env now u s ∧
      getModeV env now u (closeTicket env now u s) = "AI" ∧
      u ∉ listTickets env now (closeTicket env now u s) :=
  fun env now u s =>
    ⟨closeTicket_idem env now u s,
      getModeV_closeTicket_self env now u s,
      not_mem_listTickets_close env now u s⟩

/-! ## Ticket presence lemmas -/

theorem ticketPresent_storeSet_self (env : RedisEnv) (now ttl : Nat) (u : String)
    (v : Value) (s : Store) :
    ticketPresent u (storeSet env now ttl ("ticket:" ++ u) v s) = true := by
  unfold ticketPresent
  rw [storeSet_redis, storeSet_mem]
  by_cases hc : env.conf && env.up
  · simp only [hc, if_true]
    rw [findEntry_memSet_self]
    simp
  · simp only [hc, Bool.false_eq_true, if_false]
    rw [findEntry_memSet_self]
    simp

theorem ticketPresent_storeSet_frame (env : RedisEnv) (now ttl : Nat) {u k : String}
    (h : ("ticket:" ++ u : String) ≠ k) (v : Value) (s : Store) :
    ticketPresent u (storeSet env now ttl k v s) = ticketPresent u s := by
  unfold ticketPresent
  rw [storeSet_redis, storeSet_mem]
  by_cases hc : env.conf && env.up
  · simp only [hc, if_true]
    rw [findEntry_memSet_ne now ttl h]
  · simp only [hc, Bool.false_eq_true, if_false]
    rw [findEntry_memSet_ne now ttl h]

theorem ticketPresent_openTicket_self (env : RedisEnv) (now : Nat) (u : String)
    (s : Store) : ticketPresent u (openTicket env now u s) = true := by
  unfold openTicket
  exact ticketPresent_storeSet_self env now TTL u _ s

theorem isSome_findEntry_memDel_le {k' k : String} {m : Mem}
    (h : (findEntry k' (memDel k m)).isSome = true) :
    (findEntry k' m).isSome = true := by
  by_cases hk : k' = k
  · rw [hk, findEntry_memDel_self] at h
    exact absurd h (by simp)
  · rw [findEntry_memDel_ne hk] at h
    exact h

theorem isSome_findEntry_memGet_snd_le {now : Nat} {k' k : String} {m : Mem}
    (h : (findEntry k' ((memGet now k m).2)).isSome = true) :
    (findEntry k' m).isSome = true := by
  rcases memGet_snd_cases now k m with hc | hc
  · rw [hc] at h
    exact h
  · rw [hc] at h
    exact isSome_findEntry_memDel_le h

theorem ticketPresent_storeDel_le {env : RedisEnv} {u k : String} {s : Store}
    (h : ticketPresent u (storeDel env k s) = true) : ticketPresent u s = true := by
  unfold ticketPresent at h ⊢
  rw [storeDel_redis, storeDel_mem] at h
  by_cases hc : env.conf && env.up
  · simp only [hc, if_true] at h
    rcases Bool.or_eq_true_iff.mp h with h1 | h1
    · exact Bool.or_eq_true_iff.mpr (Or.inl (isSome_findEntry_memDel_le h1))
    · exact Bool.or_eq_true_iff.mpr (Or.inr h1)
  · simp only [hc, Bool.false_eq_true, if_false] at h
    rcases Bool.or_eq_true_iff.mp h with h1 | h1
    · exact Bool.or_eq_true_iff.mpr (Or.inl h1)
    · exact Bool.or_eq_true_iff.mpr (Or.inr (isSome_findEntry_memDel_le h1))

theorem handoverBranch_run (ctx : Ctx) (sender text : String) (st : RunState)
    (hs : ∀ i, ctx.sendOk i = true) :
    handoverBranch ctx sender text st =
      (RunState.mk
        (openTicket ctx.renv ctx.now sender
          (setMode ctx.renv ctx.now sender "HUMAN" st.store))
        (st.sent ++ [(sender, ctx.cfg.handoverText)] ++
          (if optTruthy ctx.cfg.ownerId = true then
            [(ctx.cfg.ownerId.getD "", ownerHandoverNotice sender text)] else []) ++
          (if optTruthy ctx.cfg.techId = true then
            [(ctx.cfg.techId.getD "", techHandoverNotice sender text)] else []))
        (st.attempts + 1 + (if optTruthy ctx.cfg.ownerId = true then 1 else 0) +
          (if optTruthy ctx.cfg.techId = true then 1 else 0))
        st.aiCalls
        (st.log ++ [StoreOp.wSetMode sender "HUMAN", StoreOp.wOpenTicket sender]),
        Except.ok ()) := by
  unfold handoverBranch
  by_cases ho : optTruthy ctx.cfg.ownerId = true <;>
    by_cases ht : optTruthy ctx.cfg.techId = true <;>
      simp [ho, ht, bind_run, pure_run, mSetMode_run, mOpenTicket_run, mSend, hs]

/-- C6: a non-operator message matching the handover detector makes the
router deliver exactly one fixed auto-text to the end user plus one
notification per configured operator id (zero, one or two), write
mode=HUMAN and open a ticket for that user (in this order), and perform no
AI completion on that turn, finishing without rejection. -/
theorem c6_handover_effects (ctx : Ctx) (sender text0 : String) (st : RunState)
    (hna : (ctx.cfg.ownerId == Option.some sender ||
      ctx.cfg.techId == Option.some sender) = false)
    (hw : wantsTechnician (jsTrim text0) = true)
    (hs : ∀ i, ctx.sendOk i = true) :
    (webhookHandler ctx sender text0 st).1.sent =
      st.sent ++ [(sender, ctx.cfg.handoverText)] ++
        (if optTruthy ctx.cfg.ownerId = true then
          [(ctx.cfg.ownerId.getD "", ownerHandoverNotice sender (jsTrim text0))] else []) ++
        (if optTruthy ctx.cfg.techId = true then
          [(ctx.cfg.techId.getD "", techHandoverNotice sender (jsTrim text0))] else []) ∧
    (webhookHandler ctx sender text0 st).1.log =
      st.log ++ [StoreOp.wSetMode sender "HUMAN", StoreOp.wOpenTicket sender] ∧
    getModeV ctx.renv ctx.now sender ((webhookHandler ctx sender text0 st).1.store) =
      "HUMAN" ∧
    ticketPresent sender ((webhookHandler ctx sender text0 st).1.store) = true ∧
    (webhookHandler ctx sender text0 st).1.aiCalls = st.aiCalls ∧
    (webhookHandler ctx sender text0 st).2 = Except.ok () := by
  have hrun : webhookHandler ctx sender text0 st = handoverBranch ctx sender (jsTrim text0) st := by
    unfold webhookHandler
    rw [if_neg (by simp [hna]), if_pos hw]
  rw [hrun, handoverBranch_run ctx sender (jsTrim text0) st hs]
  refine ⟨rfl, rfl, ?_, ?_, rfl, rfl⟩
  · show getModeV ctx.renv ctx.now sender
      (openTicket ctx.renv ctx.now sender
        (setMode ctx.renv ctx.now sender "HUMAN" st.store)) = "HUMAN"
    rw [getModeV_openTicket]
    exact getModeV_setMode_self ctx.renv ctx.now sender "HUMAN" (by decide) st.store
  · show ticketPresent sender
      (openTicket ctx.renv ctx.now sender
        (setMode ctx.renv ctx.now sender "HUMAN" st.store)) = true
    exact ticketPresent_openTicket_self ctx.renv ctx.now sender _

/-- C6 witness: a concrete handover run with only the owner configured
produces exactly the auto-text to the user and one owner notification. -/
theorem c6_handover_effects_witness :
    ((Ctx.mk (Config.mk (Option.some "o") Option.none false false "h")
        (RedisEnv.mk false false) 0 (fun _ => true)
        (Except.ok Option.none) (Except.ok Option.none)).cfg.ownerId ==
          Option.some "c" ||
      (Ctx.mk (Config.mk (Option.some "o") Option.none false false "h")
        (RedisEnv.mk false false) 0 (fun _ => true)
        (Except.ok Option.none) (Except.ok Option.none)).cfg.techId ==
          Option.some "c") = false ∧
    wantsTechnician (jsTrim "humano") = true ∧
    (webhookHandler (Ctx.mk (Config.mk (Option.some "o") Option.none false false "h")
        (RedisEnv.mk false false) 0 (fun _ => true)
        (Except.ok Option.none) (Except.ok Option.none)) "c" "humano" initialState).1.sent =
      initialState.sent ++ [("c", "h")] ++ [("o", ownerHandoverNotice "c" (jsTrim "humano"))] ++ [] :=
  ⟨by decide, by decide, by
    have h := c6_handover_effects
      (Ctx.mk (Config.mk (Option.some "o") Option.none false false "h")
        (RedisEnv.mk false false) 0 (fun _ => true)
        (Except.ok Option.none) (Except.ok Option.none)) "c" "humano" initialState
      (by decide) (by decide) (fun _ => rfl)
    rw [h.1]
    decide⟩

/-! ## Ticket history invariant machinery -/

theorem hbo_extend {u : String} {l1 l2 : List StoreOp}
    (h : humanBeforeOpen u l1) : humanBeforeOpen u (l1 ++ l2) := by
  obtain ⟨i, j, hij, hi, hj⟩ := h
  refine ⟨i, j, hij, ?_, ?_⟩
  · rw [List.get?_append ((List.get?_eq_some.mp hi).1)]
    exact hi
  · rw [List.get?_append ((List.get?_eq_some.mp hj).1)]
    exact hj

theorem c9step_refl (u : String) (st : RunState) : c9step u st st :=
  ⟨fun h => Or.inl h, ⟨[], by simp⟩⟩

theorem c9step_trans {u : String} {st st1 st2 : RunState}
    (h1 : c9step u st st1) (h2 : c9step u st1 st2) : c9step u st st2 := by
  obtain ⟨ht1, l1, hl1⟩ := h1
  obtain ⟨ht2, l2, hl2⟩ := h2
  refine ⟨?_, ⟨l1 ++ l2, by rw [hl2, hl1, List.append_assoc]⟩⟩
  intro hp
  rcases ht2 hp with hp1 | hb
  · rcases ht1 hp1 with hp0 | hb
    · exact Or.inl hp0
    · right
      rw [hl2]
      exact hbo_extend hb
  · exact Or.inr hb

theorem c9step_bind {u : String} {α : Type} {x : M α} {g : α → M Unit}
    (hx : ∀ st, c9step u st (x st).1) (hg : ∀ a st, c9step u st (g a st).1) :
    ∀ st, c9step u st ((x >>= g) st).1 := by
  intro st
  rw [bind_run]
  cases hrun : x st with
  | mk st1 r =>
    cases r with
    | ok a =>
      have h1 : c9step u st st1 := by
        have := hx st
        rw [hrun] at this
        exact this
      exact c9step_trans h1 (hg a st1)
    | error e =>
      have := hx st
      rw [hrun] at this
      exact this

theorem c9step_of_frame {u : String} {st st' : RunState}
    (hstore : ticketPresent u st'.store = true → ticketPresent u st.store = true)
    (hlog : ∃ l2, st'.log = st.log ++ l2) : c9step u st st' :=
  ⟨fun h => Or.inl (hstore h), hlog⟩

theorem c9step_mSend (u : String) (ctx : Ctx) (a b : String) :
    ∀ st, c9step u st ((mSend ctx a b st).1) := by
  intro st
  apply c9step_of_frame
  · rw [mSend_store]
    exact id
  · rw [mSend_log]
    exact ⟨[], by simp⟩

theorem c9step_pure (u : String) (a : Unit) : ∀ st, c9step u st (((pure a : M Unit)) st).1 := by
  intro st
  exact c9step_refl u st

theorem ticketPresent_setMode (env : RedisEnv) (now : Nat) (u w m' : String) (s : Store) :
    ticketPresent u (setMode env now w m' s) = ticketPresent u s := by
  unfold setMode
  exact ticketPresent_storeSet_frame env now TTL (ticketKey_ne_modeKey u w) _ s

theorem ticketPresent_savePreview (env : RedisEnv) (now : Nat) (u w t : String)
    (s : Store) : ticketPresent u (savePreview env now w t s) = ticketPresent u s := by
  unfold savePreview
  exact ticketPresent_storeSet_frame env now (60 * 15) (ticketKey_ne_previewKey u w) _ s

theorem ticketPresent_saveContext (env : RedisEnv) (now : Nat) (u w : String)
    (l : List Turn) (s : Store) :
    ticketPresent u (saveContext env now w l s) = ticketPresent u s := by
  unfold saveContext
  exact ticketPresent_storeSet_frame env now TTL (ticketKey_ne_ctxKey u w) _ s

theorem ticketPresent_read_post_le {u : String} {s2 s : Store}
    (hred : (findEntry ("ticket:" ++ u) s2.redis).isSome = true →
      (findEntry ("ticket:" ++ u) s.redis).isSome = true)
    (hmem : (findEntry ("ticket:" ++ u) s2.mem).isSome = true →
      (findEntry ("ticket:" ++ u) s.mem).isSome = true)
    (h : ticketPresent u s2 = true) : ticketPresent u s = true := by
  unfold ticketPresent at h ⊢
  rcases Bool.or_eq_true_iff.mp h with h1 | h1
  · exact Bool.or_eq_true_iff.mpr (Or.inl (hred h1))
  · exact Bool.or_eq_true_iff.mpr (Or.inr (hmem h1))

theorem ticketPresent_getMode_post_le (env : RedisEnv) (now : Nat) (u w : String)
    (s : Store) (h : ticketPresent u ((getMode env now w s).2) = true) :
    ticketPresent u s = true := by
  refine ticketPresent_read_post_le ?_ ?_ h <;>
    unfold getMode <;>
    by_cases htr : truthy (safeRedisGet env now ("mode:" ++ w) s.redis).1 <;>
      simp only [htr, if_true, if_false, Bool.false_eq_true, not_false_iff] <;>
      intro hh
  · rw [safeRedisGet_snd] at hh
    by_cases hc : env.conf && env.up
    · rw [if_pos hc] at hh
      exact isSome_findEntry_memGet_snd_le hh
    · rw [if_neg hc] at hh
      exact hh
  · rw [safeRedisGet_snd] at hh
    by_cases hc : env.conf && env.up
    · rw [if_pos hc] at hh
      exact isSome_findEntry_memGet_snd_le hh
    · rw [if_neg hc] at hh
      exact hh
  · exact hh
  · exact isSome_findEntry_memGet_snd_le hh

theorem ticketPresent_getContext_post_le (env : RedisEnv) (now : Nat) (u w : String)
    (s : Store) (h : ticketPresent u ((getContext env now w s).2) = true) :
    ticketPresent u s = true := by
  refine ticketPresent_read_post_le ?_ ?_ h <;>
    unfold getContext <;>
    by_cases htr : truthy (safeRedisGet env now ("ctx:" ++ w) s.redis).1 <;>
      simp only [htr, if_true, if_false, Bool.false_eq_true, not_false_iff] <;>
      intro hh
  · rw [safeRedisGet_snd] at hh
    by_cases hc : env.conf && env.up
    · rw [if_pos hc] at hh
      exact isSome_findEntry_memGet_snd_le hh
    · rw [if_neg hc] at hh
      exact hh
  · rw [safeRedisGet_snd] at hh
    by_cases hc : env.conf && env.up
    · rw [if_pos hc] at hh
      exact isSome_findEntry_memGet_snd_le hh
    · rw [if_neg hc] at hh
      exact hh
  · exact hh
  · exact isSome_findEntry_memGet_snd_le hh

theorem ticketPresent_getPreview_post_le (env : RedisEnv) (now : Nat) (u w : String)
    (s : Store) (h : ticketPresent u ((getPreview env now w s).2) = true) :
    ticketPresent u s = true := by
  refine ticketPresent_read_post_le ?_ ?_ h <;>
    unfold getPreview <;>
    by_cases htr : truthy (safeRedisGet env now ("preview:" ++ w) s.redis).1 <;>
      simp only [htr, if_true, if_false, Bool.false_eq_true, not_false_iff] <;>
      intro hh
  · rw [safeRedisGet_snd] at hh
    by_cases hc : env.conf && env.up
    · rw [if_pos hc] at hh
      exact isSome_findEntry_memGet_snd_le hh
    · rw [if_neg hc] at hh
      exact hh
  · rw [safeRedisGet_snd] at hh
    by_cases hc : env.conf && env.up
    · rw [if_pos hc] at hh
      exact isSome_findEntry_memGet_snd_le hh
    · rw [if_neg hc] at hh
      exact hh
  · exact hh
  · exact isSome_findEntry_memGet_snd_le hh

theorem ticketPresent_clearPreview_le {env : RedisEnv} {u w : String} {s : Store}
    (h : ticketPresent u (clearPreview env w s) = true) : ticketPresent u s = true := by
  unfold clearPreview at h
  exact ticketPresent_storeDel_le h

theorem ticketPresent_closeTicket_le {env : RedisEnv} {now : Nat} {u w : String}
    {s : Store} (h : ticketPresent u (closeTicket env now w s) = true) :
    ticketPresent u s = true := by
  unfold closeTicket at h
  rw [ticketPresent_setMode] at h
  exact ticketPresent_storeDel_le h

theorem c9step_mSavePreview (u : String) (ctx : Ctx) (w t : String) :
    ∀ st, c9step u st ((mSavePreview ctx w t st)).1 := by
  intro st
  apply c9step_of_frame
  · rw [mSavePreview_run]
    show ticketPresent u (savePreview ctx.renv ctx.now w t st.store) = true → _
    rw [ticketPresent_savePreview]
    exact id
  · rw [mSavePreview_run]
    exact ⟨[StoreOp.wSavePreview w], rfl⟩

theorem c9step_mSaveContext (u : String) (ctx : Ctx) (w : String) (l : List Turn) :
    ∀ st, c9step u st ((mSaveContext ctx w l st)).1 := by
  intro st
  apply c9step_of_frame
  · rw [mSaveContext_run]
    show ticketPresent u (saveContext ctx.renv ctx.now w l st.store) = true → _
    rw [ticketPresent_saveContext]
    exact id
  · rw [mSaveContext_run]
    exact ⟨[StoreOp.wSaveContext w], rfl⟩

theorem c9step_mSetMode (u : String) (ctx : Ctx) (w m' : String) :
    ∀ st, c9step u st ((mSetMode ctx w m' st)).1 := by
  intro st
  apply c9step_of_frame
  · rw [mSetMode_run]
    show ticketPresent u (setMode ctx.renv ctx.now w m' st.store) = true → _
    rw [ticketPresent_setMode]
    exact id
  · rw [mSetMode_run]
    exact ⟨[StoreOp.wSetMode w m'], rfl⟩

theorem c9step_mClearPreview (u : String) (ctx : Ctx) (w : String) :
    ∀ st, c9step u st ((mClearPreview ctx w st)).1 := by
  intro st
  apply c9step_of_frame
  · rw [mClearPreview_run]
    exact fun h => ticketPresent_clearPreview_le h
  · rw [mClearPreview_run]
    exact ⟨[StoreOp.wClearPreview w], rfl⟩

theorem c9step_mCloseTicket (u : String) (ctx : Ctx) (w : String) :
    ∀ st, c9step u st ((mCloseTicket ctx w st)).1 := by
  intro st
  apply c9step_of_frame
  · rw [mCloseTicket_run]
    exact fun h => ticketPresent_closeTicket_le h
  · rw [mCloseTicket_run]
    exact ⟨[StoreOp.wDelTicket w, StoreOp.wSetMode w "AI"], rfl⟩

theorem c9step_mGetMode (u : String) (ctx : Ctx) (w : String) :
    ∀ st, c9step u st ((mGetMode ctx w st)).1 := by
  intro st
  apply c9step_of_frame
  · rw [mGetMode_run]
    exact fun h => ticketPresent_getMode_post_le ctx.renv ctx.now u w st.store h
  · rw [mGetMode_run]
    exact ⟨[], by simp⟩

theorem c9step_mGetContext (u : String) (ctx : Ctx) (w : String) :
    ∀ st, c9step u st ((mGetContext ctx w st)).1 := by
  intro st
  apply c9step_of_frame
  · rw [mGetContext_run]
    exact fun h => ticketPresent_getContext_post_le ctx.renv ctx.now u w st.store h
  · rw [mGetContext_run]
    exact ⟨[], by simp⟩

theorem c9step_mGetPreview (u : String) (ctx : Ctx) (w : String) :
    ∀ st, c9step u st ((mGetPreview ctx w st)).1 := by
  intro st
  apply c9step_of_frame
  · rw [mGetPreview_run]
    exact fun h => ticketPresent_getPreview_post_le ctx.renv ctx.now u w st.store h
  · rw [mGetPreview_run]
    exact ⟨[], by simp⟩

theorem c9step_mListTickets (u : String) (ctx : Ctx) :
    ∀ st, c9step u st ((mListTickets ctx st)).1 := by
  intro st
  exact c9step_refl u st

theorem c9step_mGerarResposta (u : String) (o : Except Unit (Option String))
    (msgs : List Turn) : ∀ st, c9step u st ((mGerarResposta o msgs st)).1 := by
  intro st
  apply c9step_of_frame
  · unfold mGerarResposta
    cases o <;> exact id
  · unfold mGerarResposta
    cases o <;> exact ⟨[], by simp⟩

theorem c9step_catchWith_polish (u : String) (o : Except Unit (Option String))
    (orig fb : String) : ∀ st, c9step u st ((catchWith (polishAgentText o orig) fb st)).1 := by
  intro st
  rw [catchWith_polish_run]
  exact c9step_of_frame id ⟨[], by simp [bumpAi]⟩

theorem replyBranch_c9 (u : String) (ctx : Ctx) (sender toU msg : String) (r : Bool) :
    ∀ st, c9step u st ((replyBranch ctx sender toU msg r st)).1 := by
  intro st
  unfold replyBranch
  by_cases h0 : (decide (toU = "") || decide (msg = "")) = true
  · rw [if_pos h0]
    exact c9step_refl u st
  · rw [if_neg h0]
    dsimp only
    have hcont : ∀ (ft : String) (st1 : RunState), c9step u st1
        (((if ctx.cfg.previewFlag = true then
            (mSavePreview ctx toU ft >>= fun _ =>
              mSend ctx sender (previewNoticeText toU ft))
          else mSend ctx toU ft) st1)).1 := by
      intro ft st1
      by_cases hprev : ctx.cfg.previewFlag = true
      · rw [if_pos hprev]
        refine c9step_bind ?_ ?_ st1
        · intro st2
          exact c9step_mSavePreview u ctx toU ft st2
        · intro a st2
          exact c9step_mSend u ctx sender (previewNoticeText toU ft) st2
      · rw [if_neg hprev]
        exact c9step_mSend u ctx toU ft st1
    by_cases hpol : (ctx.cfg.polishFlag && r) = true
    · rw [if_pos hpol]
      refine c9step_bind ?_ hcont st
      intro st1
      exact c9step_catchWith_polish u ctx.polishOutcome msg msg st1
    · rw [if_neg hpol]
      refine c9step_bind ?_ hcont st
      intro st1
      exact c9step_refl u st1

theorem sendBranch_c9 (u : String) (ctx : Ctx) (sender toU : String) :
    ∀ st, c9step u st ((sendBranch ctx sender toU st)).1 := by
  intro st
  unfold sendBranch
  by_cases h0 : toU = ""
  · rw [if_pos h0]
    exact c9step_refl u st
  · rw [if_neg h0]
    refine c9step_bind ?_ ?_ st
    · intro st1
      exact c9step_mGetPreview u ctx toU st1
    · intro a st1
      by_cases hpv : a.getD "" = ""
      · rw [if_pos hpv]
        exact c9step_mSend u ctx sender noPreviewText st1
      · rw [if_neg hpv]
        refine c9step_bind ?_ ?_ st1
        · intro st2
          exact c9step_mSend u ctx toU (a.getD "") st2
        · intro b st2
          refine c9step_bind ?_ ?_ st2
          · intro st3
            exact c9step_mClearPreview u ctx toU st3
          · intro c st3
            exact c9step_mSend u ctx sender sentConfirmText st3

theorem closeBranch_c9 (u : String) (ctx : Ctx) (sender toU : String) :
    ∀ st, c9step u st ((closeBranch ctx sender toU st)).1 := by
  intro st
  unfold closeBranch
  by_cases h0 : toU = ""
  · rw [if_pos h0]
    exact c9step_refl u st
  · rw [if_neg h0]
    refine c9step_bind ?_ ?_ st
    · intro st1
      exact c9step_mCloseTicket u ctx toU st1
    · intro a st1
      refine c9step_bind ?_ ?_ st1
      · intro st2
        exact c9step_mSend u ctx toU closeUserText st2
      · intro b st2
        exact c9step_mSend u ctx sender ("Atendimento encerrado para " ++ toU ++ ".") st2

theorem listBranch_c9 (u : String) (ctx : Ctx) (sender : String) :
    ∀ st, c9step u st ((listBranch ctx sender st)).1 := by
  intro st
  unfold listBranch
  refine c9step_bind ?_ ?_ st
  · intro st1
    exact c9step_mListTickets u ctx st1
  · intro l st1
    exact c9step_mSend u ctx sender _ st1

theorem humanModeBranch_c9 (u : String) (ctx : Ctx) (sender text : String) :
    ∀ st, c9step u st ((humanModeBranch ctx sender text st)).1 := by
  intro st
  unfold humanModeBranch
  have hjp : ∀ (a : Unit) (st1 : RunState), c9step u st1
      (((if optTruthy ctx.cfg.techId = true then
          mSend ctx (ctx.cfg.techId.getD "") (humanForwardText sender text)
        else pure ()) st1)).1 := by
    intro a st1
    by_cases ht : optTruthy ctx.cfg.techId = true
    · rw [if_pos ht]
      exact c9step_mSend u ctx _ _ st1
    · rw [if_neg ht]
      exact c9step_refl u st1
  by_cases ho : optTruthy ctx.cfg.ownerId = true
  · rw [if_pos ho]
    refine c9step_bind ?_ hjp st
    intro st1
    exact c9step_mSend u ctx _ _ st1
  · rw [if_neg ho]
    refine c9step_bind ?_ hjp st
    intro st1
    exact c9step_refl u st1

theorem aiBranch_c9 (u : String) (ctx : Ctx) (sender text : String) :
    ∀ st, c9step u st ((aiBranch ctx sender text st)).1 := by
  intro st
  unfold aiBranch
  refine c9step_bind ?_ ?_ st
  · intro st1
    exact c9step_mGetContext u ctx sender st1
  · intro ctxTurns st1
    dsimp only
    refine c9step_bind ?_ ?_ st1
    · intro st2
      exact c9step_mGerarResposta u ctx.aiOutcome _ st2
    · intro reply st2
      refine c9step_bind ?_ ?_ st2
      · intro st3
        exact c9step_mSend u ctx sender reply st3
      · intro a st3
        exact c9step_mSaveContext u ctx sender _ st3

theorem ticketKey_inj_ne {u w : String} (h : u ≠ w) :
    ("ticket:" ++ u : String) ≠ "ticket:" ++ w :=
  fun hh => h (sameKindKey_inj hh)

theorem ticketPresent_openTicket_other (env : RedisEnv) (now : Nat) {u w : String}
    (h : u ≠ w) (s : Store) :
    ticketPresent u (openTicket env now w s) = ticketPresent u s := by
  unfold openTicket
  exact ticketPresent_storeSet_frame env now TTL (ticketKey_inj_ne h) _ s

theorem hbo_pair (u : String) (log : List StoreOp) :
    humanBeforeOpen u ((log ++ [StoreOp.wSetMode u "HUMAN"]) ++ [StoreOp.wOpenTicket u]) := by
  refine ⟨log.length, log.length + 1, Nat.lt_succ_self _, ?_, ?_⟩
  · rw [List.append_assoc]
    rw [List.get?_append_right (Nat.le_refl _)]
    simp
  · rw [List.append_assoc]
    rw [List.get?_append_right (Nat.le_succ_of_le (Nat.le_refl _))]
    simp

theorem handoverBranch_c9 (u : String) (ctx : Ctx) (sender text : String) :
    ∀ st, c9step u st ((handoverBranch ctx sender text st)).1 := by
  intro st
  have hSends : ∀ st2 : RunState, c9step u st2
      (((mSend ctx sender ctx.cfg.handoverText >>= fun _ =>
          (if optTruthy ctx.cfg.ownerId = true then
            (mSend ctx (ctx.cfg.ownerId.getD "") (ownerHandoverNotice sender text) >>=
              fun _ => (if optTruthy ctx.cfg.techId = true then
                mSend ctx (ctx.cfg.techId.getD "") (techHandoverNotice sender text)
              else pure ()))
          else (pure () >>= fun _ => (if optTruthy ctx.cfg.techId = true then
                mSend ctx (ctx.cfg.techId.getD "") (techHandoverNotice sender text)
              else pure ())))) st2)).1 := by
    intro st2
    have hjp : ∀ (a : Unit) (st4 : RunState), c9step u st4
        (((if optTruthy ctx.cfg.techId = true then
            mSend ctx (ctx.cfg.techId.getD "") (techHandoverNotice sender text)
          else pure ()) st4)).1 := by
      intro a st4
      by_cases ht : optTruthy ctx.cfg.techId = true
      · rw [if_pos ht]
        exact c9step_mSend u ctx _ _ st4
      · rw [if_neg ht]
        exact c9step_refl u st4
    refine c9step_bind ?_ ?_ st2
    · intro st3
      exact c9step_mSend u ctx sender ctx.cfg.handoverText st3
    · intro a st3
      by_cases ho : optTruthy ctx.cfg.ownerId = true
      · rw [if_pos ho]
        refine c9step_bind ?_ (hjp) st3
        intro st4
        exact c9step_mSend u ctx _ _ st4
      · rw [if_neg ho]
        refine c9step_bind ?_ (hjp) st3
        intro st4
        exact c9step_refl u st4
  have hPair : c9step u st (RunState.mk
      (openTicket ctx.renv ctx.now sender (setMode ctx.renv ctx.now sender "HUMAN" st.store))
      st.sent st.attempts st.aiCalls
      ((st.log ++ [StoreOp.wSetMode sender "HUMAN"]) ++ [StoreOp.wOpenTicket sender])) := by
    constructor
    · intro hp
      by_cases hu : u = sender
      · right
        rw [hu]
        exact hbo_pair sender st.log
      · left
        have hp2 : ticketPresent u
            (openTicket ctx.renv ctx.now sender
              (setMode ctx.renv ctx.now sender "HUMAN" st.store)) = true := hp
        rw [ticketPresent_openTicket_other ctx.renv ctx.now hu,
          ticketPresent_setMode] at hp2
        exact hp2
    · exact ⟨[StoreOp.wSetMode sender "HUMAN", StoreOp.wOpenTicket sender], by
        rw [List.append_assoc]
        rfl⟩
  exact c9step_trans hPair (hSends _)

theorem webhookHandler_c9 (ctx : Ctx) (sender text0 u : String) (st : RunState) :
    c9step u st ((webhookHandler ctx sender text0 st)).1 := by
  unfold webhookHandler
  by_cases hAgent : (ctx.cfg.ownerId == Option.some sender ||
      ctx.cfg.techId == Option.some sender) = true
  · rw [if_pos hAgent]
    cases parseCommand (jsTrim text0) with
    | reply toU msg => exact replyBranch_c9 u ctx sender toU msg true st
    | reply_raw toU msg => exact replyBranch_c9 u ctx sender toU msg false st
    | send toU => exact sendBranch_c9 u ctx sender toU st
    | close toU => exact closeBranch_c9 u ctx sender toU st
    | list => exact listBranch_c9 u ctx sender st
    | none => exact c9step_mSend u ctx sender helpText st
  · rw [if_neg hAgent]
    by_cases hw : wantsTechnician (jsTrim text0) = true
    · rw [if_pos hw]
      exact handoverBranch_c9 u ctx sender (jsTrim text0) st
    · rw [if_neg hw]
      refine c9step_bind ?_ ?_ st
      · intro st1
        exact c9step_mGetMode u ctx sender st1
      · intro mode st1
        by_cases hm : mode = "HUMAN"
        · rw [if_pos hm]
          exact humanModeBranch_c9 u ctx sender (jsTrim text0) st1
        · rw [if_neg hm]
          exact aiBranch_c9 u ctx sender (jsTrim text0) st1

theorem processTrace_inv (events : List Event) :
    ∀ st : RunState,
      (∀ u, ticketPresent u st.store = true → humanBeforeOpen u st.log) →
      ∀ u, ticketPresent u (processTrace events st).store = true →
        humanBeforeOpen u (processTrace events st).log := by
  induction events with
  | nil =>
    intro st h u hp
    exact h u hp
  | cons e rest ih =>
    intro st h u hp
    refine ih (runHandler e.ctx e.sender e.text st).1 ?_ u hp
    intro u' hp'
    obtain ⟨ht, l2, hl⟩ := webhookHandler_c9 e.ctx e.sender e.text u' st
    rcases ht hp' with h1 | h1
    · show humanBeforeOpen u' ((webhookHandler e.ctx e.sender e.text st).1.log)
      rw [hl]
      exact hbo_extend (h u' h1)
    · exact h1

/-- C9: starting from the empty session store, no sequence of inbound
events produces a present ticket entry for a user without the store-write
log containing a HUMAN mode write for that user strictly before an
open-ticket write for that user: the router performs those two writes only
together, in that order. -/
theorem c9_open_ticket_implies_human_write :
    ∀ (events : List Event) (u : String),
      ticketPresent u (processTrace events initialState).store = true →
      humanBeforeOpen u (processTrace events initialState).log :=
  fun events u h =>
    processTrace_inv events initialState
      (fun u' hp => by
        simp [initialState, ticketPresent, findEntry, List.find?] at hp)
      u h

/-- C9 witness: a concrete trace with one handover event yields a present
ticket whose log shows the HUMAN write before the ticket-open write. -/
theorem c9_open_ticket_witness :
    ticketPresent "c"
      (processTrace [Event.mk (Ctx.mk (Config.mk (Option.some "o") Option.none false false "h")
        (RedisEnv.mk false false) 0 (fun _ => true)
        (Except.ok Option.none) (Except.ok Option.none)) "c" "humano"] initialState).store =
      true ∧
    humanBeforeOpen "c"
      (processTrace [Event.mk (Ctx.mk (Config.mk (Option.some "o") Option.none false false "h")
        (RedisEnv.mk false false) 0 (fun _ => true)
        (Except.ok Option.none) (Except.ok Option.none)) "c" "humano"] initialState).log :=
  ⟨by decide,
    c9_open_ticket_implies_human_write
      [Event.mk (Ctx.mk (Config.mk (Option.some "o") Option.none false false "h")
        (RedisEnv.mk false false) 0 (fun _ => true)
        (Except.ok Option.none) (Except.ok Option.none)) "c" "humano"] "c" (by decide)⟩

/-! ## Preview workflow run lemmas -/

theorem replyBranch_preview_run (ctx : Ctx) (sender toU msg : String) (r : Bool)
    (st : RunState) (hto : toU ≠ "") (hmsg : msg ≠ "")
    (hprev : ctx.cfg.previewFlag = true) (hs : ∀ i, ctx.sendOk i = true) :
    replyBranch ctx sender toU msg r st =
      (RunState.mk
        (savePreview ctx.renv ctx.now toU
          (if (ctx.cfg.polishFlag && r) = true then
            polishFallback ctx.polishOutcome msg msg else msg) st.store)
        (st.sent ++ [(sender, previewNoticeText toU
          (if (ctx.cfg.polishFlag && r) = true then
            polishFallback ctx.polishOutcome msg msg else msg))])
        (st.attempts + 1)
        (st.aiCalls + (if (ctx.cfg.polishFlag && r) = true then 1 else 0))
        (st.log ++ [StoreOp.wSavePreview toU]),
        Except.ok ()) := by
  unfold replyBranch
  rw [if_neg (by simp [hto, hmsg])]
  dsimp only
  by_cases hpol : (ctx.cfg.polishFlag && r) = true <;>
    simp [hpol, hprev, bind_run, pure_run, catchWith_polish_run, bumpAi,
      mSavePreview_run, mSend, hs]

theorem sendBranch_deliver_run (ctx : Ctx) (sender toU pv : String) (st : RunState)
    (hto : toU ≠ "") (hs : ∀ i, ctx.sendOk i = true)
    (hpv : (getPreview ctx.renv ctx.now toU st.store).1 = Option.some pv)
    (hpvne : pv ≠ "") :
    sendBranch ctx sender toU st =
      (RunState.mk (clearPreview ctx.renv toU (getPreview ctx.renv ctx.now toU st.store).2)
        (st.sent ++ [(toU, pv), (sender, sentConfirmText)])
        (st.attempts + 2) st.aiCalls (st.log ++ [StoreOp.wClearPreview toU]),
        Except.ok ()) := by
  unfold sendBranch
  rw [if_neg hto]
  simp [bind_run, mGetPreview_run, hpv, hpvne, mClearPreview_run, mSend, hs]

theorem sendBranch_nopreview_run (ctx : Ctx) (sender toU : String) (st : RunState)
    (hto : toU ≠ "") (hs : ∀ i, ctx.sendOk i = true)
    (hpv : ((getPreview ctx.renv ctx.now toU st.store).1).getD "" = "") :
    sendBranch ctx sender toU st =
      (RunState.mk (getPreview ctx.renv ctx.now toU st.store).2
        (st.sent ++ [(sender, noPreviewText)])
        (st.attempts + 1) st.aiCalls st.log,
        Except.ok ()) := by
  unfold sendBranch
  rw [if_neg hto]
  simp [bind_run, mGetPreview_run, hpv, mSend, hs]

theorem getPreview_fst_savePreview_self (env : RedisEnv) (now now' : Nat) (u t : String)
    (s : Store) (hlt : now' < now + 60 * 15) (htne : t ≠ "") :
    (getPreview env now' u (savePreview env now u t s)).1 = Option.some t := by
  have h1 : (getPreview env now' u (savePreview env now u t s)).1 =
      getPreviewV env now' u (savePreview env now u t s) := rfl
  rw [h1, getPreviewV_eq]
  unfold savePreview
  rw [readVal_storeSet_self]
  have hexp : ¬ (now + 60 * 15 ≤ now') := by omega
  by_cases hc : env.conf && env.up <;>
    simp [hc, hexp, prevOf, truthy, valToStrOpt, htne]

theorem findEntry_memGet_snd_none {now : Nat} {k' k : String} {m : Mem}
    (h : findEntry k m = Option.none) :
    findEntry k ((memGet now k' m).2) = Option.none := by
  rcases memGet_snd_cases now k' m with hc | hc
  · rw [hc]
    exact h
  · rw [hc]
    by_cases hk : k = k'
    · rw [hk, findEntry_memDel_self]
    · rw [findEntry_memDel_ne hk]
      exact h

theorem preview_none_after_clear (env : RedisEnv) (now2 now3 : Nat) (u : String)
    (s1 : Store)
    (hmem : (env.conf && env.up) = true →
      findEntry ("preview:" ++ u) s1.mem = Option.none) :
    ((getPreview env now3 u
      (clearPreview env u (getPreview env now2 u s1).2)).1).getD "" = "" := by
  have h1 : (getPreview env now3 u
      (clearPreview env u (getPreview env now2 u s1).2)).1 =
      getPreviewV env now3 u (clearPreview env u (getPreview env now2 u s1).2) := rfl
  rw [h1, getPreviewV_eq]
  unfold clearPreview
  rw [readVal_storeDel_self]
  by_cases hc : (env.conf && env.up) = true
  · have hget : findEntry ("preview:" ++ u) ((getPreview env now2 u s1).2).mem =
        Option.none := by
      unfold getPreview
      by_cases htr : truthy (safeRedisGet env now2 ("preview:" ++ u) s1.redis).1
      · simp only [htr, if_true]
        exact hmem hc
      · simp only [htr, Bool.false_eq_true, if_false]
        exact findEntry_memGet_snd_none (hmem hc)
    simp only [hc, if_true]
    rw [hget]
    simp [prevOf, truthy, liveVal]
  · simp [hc, prevOf, truthy]

/-- C2: with preview mode on, an operator /resp stages the (possibly
polished) text and notifies only the operator — the end user receives
nothing; a following /enviar within the preview window delivers exactly
the staged text to the end user, confirms to the operator and clears the
stage; a second /enviar with no intervening staging yields the
no-preview-pending reply. -/
theorem c2_preview_workflow
    (cfg : Config) (renv : RedisEnv) (sender toU body cmdText sendText : String)
    (now1 now2 now3 : Nat) (so1 so2 so3 : Nat → Bool)
    (ai1 ai2 ai3 po1 po2 po3 : Except Unit (Option String)) (st : RunState)
    (hAgent : (cfg.ownerId == Option.some sender ||
      cfg.techId == Option.some sender) = true)
    (hparse1 : parseCommand (jsTrim cmdText) = Command.reply toU body)
    (hparse2 : parseCommand (jsTrim sendText) = Command.send toU)
    (hto : toU ≠ "") (hbody : body ≠ "") (hne : toU ≠ sender)
    (hprev : cfg.previewFlag = true)
    (hs1 : ∀ i, so1 i = true) (hs2 : ∀ i, so2 i = true) (hs3 : ∀ i, so3 i = true)
    (ht21 : now2 < now1 + 60 * 15)
    (hmemclean : findEntry ("preview:" ++ toU) st.store.mem = Option.none) :
    ∃ ft : String, ft ≠ "" ∧ toU ≠ sender ∧
      (webhookHandler (Ctx.mk cfg renv now1 so1 ai1 po1) sender cmdText st).1.sent =
        st.sent ++ [(sender, previewNoticeText toU ft)] ∧
      (webhookHandler (Ctx.mk cfg renv now2 so2 ai2 po2) sender sendText
        (webhookHandler (Ctx.mk cfg renv now1 so1 ai1 po1) sender cmdText st).1).1.sent =
        st.sent ++ [(sender, previewNoticeText toU ft)] ++
          [(toU, ft), (sender, sentConfirmText)] ∧
      (webhookHandler (Ctx.mk cfg renv now3 so3 ai3 po3) sender sendText
        (webhookHandler (Ctx.mk cfg renv now2 so2 ai2 po2) sender sendText
          (webhookHandler (Ctx.mk cfg renv now1 so1 ai1 po1) sender cmdText st).1).1).1.sent =
        st.sent ++ [(sender, previewNoticeText toU ft)] ++
          [(toU, ft), (sender, sentConfirmText)] ++ [(sender, noPreviewText)] := by
  have hftne : (if (cfg.polishFlag && true) = true then
      polishFallback po1 body body else body) ≠ "" := by
    by_cases hpol : (cfg.polishFlag && true) = true
    · rw [if_pos hpol]
      exact polishFallback_ne_empty po1 body body hbody hbody
    · rw [if_neg hpol]
      exact hbody
  have e0 : webhookHandler (Ctx.mk cfg renv now1 so1 ai1 po1) sender cmdText st =
      replyBranch (Ctx.mk cfg renv now1 so1 ai1 po1) sender toU body true st := by
    unfold webhookHandler
    dsimp only
    rw [if_pos hAgent, hparse1]
  have e1 := replyBranch_preview_run (Ctx.mk cfg renv now1 so1 ai1 po1) sender toU body
    true st hto hbody hprev hs1
  have hpv1 : (getPreview renv now2 toU
      ((webhookHandler (Ctx.mk cfg renv now1 so1 ai1 po1) sender cmdText st).1.store)).1 =
      Option.some (if (cfg.polishFlag && true) = true then
        polishFallback po1 body body else body) := by
    rw [e0, e1]
    exact getPreview_fst_savePreview_self renv now1 now2 toU _ st.store ht21 hftne
  have e20 : webhookHandler (Ctx.mk cfg renv now2 so2 ai2 po2) sender sendText
      ((webhookHandler (Ctx.mk cfg renv now1 so1 ai1 po1) sender cmdText st).1) =
      sendBranch (Ctx.mk cfg renv now2 so2 ai2 po2) sender toU
        ((webhookHandler (Ctx.mk cfg renv now1 so1 ai1 po1) sender cmdText st).1) := by
    unfold webhookHandler
    dsimp only
    rw [if_pos hAgent, hparse2]
  have e2 := sendBranch_deliver_run (Ctx.mk cfg renv now2 so2 ai2 po2) sender toU
    (if (cfg.polishFlag && true) = true then polishFallback po1 body body else body)
    ((webhookHandler (Ctx.mk cfg renv now1 so1 ai1 po1) sender cmdText st).1)
    hto hs2 hpv1 hftne
  have hpv3 : ((getPreview renv now3 toU
      ((webhookHandler (Ctx.mk cfg renv now2 so2 ai2 po2) sender sendText
        (webhookHandler (Ctx.mk cfg renv now1 so1 ai1 po1) sender cmdText st).1).1.store)).1).getD
      "" = "" := by
    rw [e20, e2]
    show ((getPreview renv now3 toU
      (clearPreview renv toU (getPreview renv now2 toU
        ((webhookHandler (Ctx.mk cfg renv now1 so1 ai1 po1) sender cmdText st).1.store)).2)).1).getD "" = ""
    rw [e0, e1]
    show ((getPreview renv now3 toU
      (clearPreview renv toU (getPreview renv now2 toU
        (savePreview renv now1 toU (if (cfg.polishFlag && true) = true then
          polishFallback po1 body body else body) st.store)).2)).1).getD "" = ""
    apply preview_none_after_clear
    intro hc
    unfold savePreview
    rw [storeSet_mem, if_pos hc]
    exact hmemclean
  have e30 : webhookHandler (Ctx.mk cfg renv now3 so3 ai3 po3) sender sendText
      ((webhookHandler (Ctx.mk cfg renv now2 so2 ai2 po2) sender sendText
        (webhookHandler (Ctx.mk cfg renv now1 so1 ai1 po1) sender cmdText st).1).1) =
      sendBranch (Ctx.mk cfg renv now3 so3 ai3 po3) sender toU
        ((webhookHandler (Ctx.mk cfg renv now2 so2 ai2 po2) sender sendText
          (webhookHandler (Ctx.mk cfg renv now1 so1 ai1 po1) sender cmdText st).1).1) := by
    unfold webhookHandler
    dsimp only
    rw [if_pos hAgent, hparse2]
  have e3 := sendBranch_nopreview_run (Ctx.mk cfg renv now3 so3 ai3 po3) sender toU
    ((webhookHandler (Ctx.mk cfg renv now2 so2 ai2 po2) sender sendText
      (webhookHandler (Ctx.mk cfg renv now1 so1 ai1 po1) sender cmdText st).1).1)
    hto hs3 hpv3
  refine ⟨(if (cfg.polishFlag && true) = true then polishFallback po1 body body else body),
    hftne, hne, ?_, ?_, ?_⟩
  · rw [e0, e1]
  · rw [e20, e2, e0, e1]
  · rw [e30, e3, e20, e2, e0, e1]

/-- C2 witness: a concrete preview-mode exchange — /resp then /enviar then
/enviar again — from the operator "op" to the end user "5511". -/
theorem c2_preview_workflow_witness :
    (1 : Nat) < 0 + 60 * 15 ∧
    (∃ ft : String, ft ≠ "" ∧ ("5511" : String) ≠ "op" ∧
      (webhookHandler (Ctx.mk (Config.mk (Option.some "op") Option.none false true "h")
          (RedisEnv.mk false false) 0 (fun _ => true) (Except.ok Option.none)
          (Except.ok Option.none)) "op" "/resp 5511 oi" initialState).1.sent =
        initialState.sent ++ [("op", previewNoticeText "5511" ft)] ∧
      (webhookHandler (Ctx.mk (Config.mk (Option.some "op") Option.none false true "h")
          (RedisEnv.mk false false) 1 (fun _ => true) (Except.ok Option.none)
          (Except.ok Option.none)) "op" "/enviar 5511"
        (webhookHandler (Ctx.mk (Config.mk (Option.some "op") Option.none false true "h")
          (RedisEnv.mk false false) 0 (fun _ => true) (Except.ok Option.none)
          (Except.ok Option.none)) "op" "/resp 5511 oi" initialState).1).1.sent =
        initialState.sent ++ [("op", previewNoticeText "5511" ft)] ++
          [("5511", ft), ("op", sentConfirmText)] ∧
      (webhookHandler (Ctx.mk (Config.mk (Option.some "op") Option.none false true "h")
          (RedisEnv.mk false false) 2 (fun _ => true) (Except.ok Option.none)
          (Except.ok Option.none)) "op" "/enviar 5511"
        (webhookHandler (Ctx.mk (Config.mk (Option.some "op") Option.none false true "h")
          (RedisEnv.mk false false) 1 (fun _ => true) (Except.ok Option.none)
          (Except.ok Option.none)) "op" "/enviar 5511"
          (webhookHandler (Ctx.mk (Config.mk (Option.some "op") Option.none false true "h")
            (RedisEnv.mk false false) 0 (fun _ => true) (Except.ok Option.none)
            (Except.ok Option.none)) "op" "/resp 5511 oi" initialState).1).1).1.sent =
        initialState.sent ++ [("op", previewNoticeText "5511" ft)] ++
          [("5511", ft), ("op", sentConfirmText)] ++ [("op", noPreviewText)]) :=
  ⟨by decide,
    c2_preview_workflow (Config.mk (Option.some "op") Option.none false true "h")
      (RedisEnv.mk false false) "op" "5511" "oi" "/resp 5511 oi" "/enviar 5511"
      0 1 2 (fun _ => true) (fun _ => true) (fun _ => true)
      (Except.ok Option.none) (Except.ok Option.none) (Except.ok Option.none)
      (Except.ok Option.none) (Except.ok Option.none) (Except.ok Option.none)
      initialState (by decide) (by decide) (by decide) (by decide) (by decide)
      (by decide) (by decide) (fun _ => rfl) (fun _ => rfl) (fun _ => rfl)
      (by decide) (by decide)⟩
